import Mathlib

/-!
Verification of the session-tracking backend (src/app.py).

The file shallowly embeds the four Flask handlers of app.py —
create_session, get_session, bot_heartbeat, get_bot_status — together with
the parts of the Python standard library they depend on (json.dumps /
json.loads with the default ensure_ascii separators, urllib.parse.urlparse
query extraction, urllib.parse.parse_qs with default arguments, str.strip /
str.split, datetime.now().isoformat()).  SQLite tables are modelled as
association lists; each handler is a pure function from its request data
and a store to a response and the successor store.  Machine-level aspects
that the handlers do not depend on are simplified away and noted next to
the definition concerned (JSON floats are not modelled, Python strings are
restricted to Unicode scalar values, bytes.decode(..., "replace")
granularity on ill-formed UTF-8 follows the Unicode recommendation).

Times are civil timestamps (year/month/day/h/m/s/microsecond) plus an
optional UTC offset, mirroring datetime objects; datetime.now() yields a
timezone-naive value.
-/

/-- JSON values as produced by Flask's request.get_json: null, booleans,
numbers, strings, arrays, and string-keyed objects (insertion order kept,
as in a Python dict).  Numbers are restricted to integers: no claim about
the program depends on float payloads, and IEEE floats are outside the
embedding. -/
inductive Json where
  | null
  | bool (b : Bool)
  | num (n : Int)
  | str (s : String)
  | arr (xs : List Json)
  | obj (kvs : List (String × Json))

/-- Association-list lookup, first binding wins (Python dicts hold each key
once, so on dict-shaped data this is exact). -/
def lookupKey {α β : Type} [DecidableEq α] (k : α) : List (α × β) → Option β
  | [] => none
  | (k0, v) :: rest => if k0 = k then some v else lookupKey k rest

/-- dict.get(k) — the bound value, or None (Json.null) when absent. -/
def pyGet (k : String) (kvs : List (String × Json)) : Json :=
  (lookupKey k kvs).getD Json.null

/-- k in kvs for a dict. -/
def hasKeyJ (k : String) (kvs : List (String × Json)) : Bool :=
  (lookupKey k kvs).isSome

/-- Python truthiness of a JSON value (None/False/0/'' and empty
containers are falsy). -/
def jsonTruthy : Json → Bool
  | .null => false
  | .bool b => b
  | .num n => !(n = 0)
  | .str s => !(s = "")
  | .arr xs => !xs.isEmpty
  | .obj kvs => !kvs.isEmpty

/- ### Decimal rendering of integers (int.__repr__, used by json.dumps) -/

/-- Digit character for a value below ten. -/
def digChar (n : Nat) : Char := Char.ofNat (48 + n)

/-- Most-significant-first decimal digits; fuel-indexed so that the
definition is structurally recursive and kernel-reducible. -/
def natDigs : Nat → Nat → List Char
  | 0, _ => []
  | f + 1, n => if n < 10 then [digChar n] else natDigs f (n / 10) ++ [digChar (n % 10)]

/-- Decimal digits of a natural number. -/
def natChars (n : Nat) : List Char := natDigs (n + 1) n

/-- Decimal rendering of an integer, '-' prefix for negatives. -/
def intChars (n : Int) : List Char :=
  if n < 0 then '-' :: natChars (-n).toNat else natChars n.toNat

/- ### json.dumps with default arguments -/

/-- Lower-case hexadecimal digit. -/
def hexDig (n : Nat) : Char := if n < 10 then Char.ofNat (48 + n) else Char.ofNat (87 + n)

/-- Four lower-case hex digits, as in '\\u%04x'. -/
def hex4 (n : Nat) : List Char :=
  [hexDig (n / 4096 % 16), hexDig (n / 256 % 16), hexDig (n / 16 % 16), hexDig (n % 16)]

/-- Escape one character as json.dumps does with the default
ensure_ascii=True: the short escapes of ESCAPE_DCT, printable ASCII kept
verbatim, everything else as \uXXXX, astral characters as a surrogate
pair. -/
def escChar (c : Char) : List Char :=
  if c = '\\' then ['\\', '\\']
  else if c = '"' then ['\\', '"']
  else if c.toNat = 8 then ['\\', 'b']
  else if c.toNat = 9 then ['\\', 't']
  else if c.toNat = 10 then ['\\', 'n']
  else if c.toNat = 12 then ['\\', 'f']
  else if c.toNat = 13 then ['\\', 'r']
  else if 32 ≤ c.toNat && c.toNat ≤ 126 then [c]
  else if c.toNat < 65536 then '\\' :: 'u' :: hex4 c.toNat
  else
    ('\\' :: 'u' :: hex4 (55296 + (c.toNat - 65536) / 1024)) ++
      ('\\' :: 'u' :: hex4 (56320 + (c.toNat - 65536) % 1024))

/-- Escape a whole string body. -/
def escString : List Char → List Char
  | [] => []
  | c :: cs => escChar c ++ escString cs

mutual

/-- json.dumps rendering (default separators ', ' and ': '). -/
def dumpsJ : Json → List Char
  | .null => "null".data
  | .bool true => "true".data
  | .bool false => "false".data
  | .num n => intChars n
  | .str s => '"' :: (escString s.data ++ ['"'])
  | .arr [] => ['[', ']']
  | .arr (x :: xs) => '[' :: ((dumpsJ x ++ dumpsItems xs) ++ [']'])
  | .obj [] => ['{', '}']
  | .obj (kv :: kvs) => '{' :: ((dumpsMember kv ++ dumpsMembers kvs) ++ ['}'])

/-- Remaining array items, each preceded by the ', ' separator. -/
def dumpsItems : List Json → List Char
  | [] => []
  | x :: xs => ',' :: ' ' :: (dumpsJ x ++ dumpsItems xs)

/-- One object member, '"key": value'. -/
def dumpsMember : String × Json → List Char
  | (k, v) => '"' :: (escString k.data ++ ('"' :: ':' :: ' ' :: dumpsJ v))

/-- Remaining object members, each preceded by the ', ' separator. -/
def dumpsMembers : List (String × Json) → List Char
  | [] => []
  | kv :: kvs => ',' :: ' ' :: (dumpsMember kv ++ dumpsMembers kvs)

end

/-- json.dumps as a string-valued function. -/
def dumps (v : Json) : String := String.mk (dumpsJ v)

/-- Membership test on a list of strings. -/
def memB (k : String) : List String → Bool
  | [] => false
  | x :: xs => (x = k) || memB k xs

/-- No string occurs twice. -/
def nodupKeysB : List String → Bool
  | [] => true
  | k :: ks => !memB k ks && nodupKeysB ks

mutual

/-- Well-formedness of a JSON value as data that can come out of Python's
json/dict pipeline: every object holds each key at most once (a Python
dict cannot hold duplicates). -/
def wfJ : Json → Bool
  | .null => true
  | .bool _ => true
  | .num _ => true
  | .str _ => true
  | .arr xs => wfArr xs
  | .obj kvs => nodupKeysB (kvs.map Prod.fst) && wfObj kvs

def wfArr : List Json → Bool
  | [] => true
  | x :: xs => wfJ x && wfArr xs

def wfObj : List (String × Json) → Bool
  | [] => true
  | (_, v) :: kvs => wfJ v && wfObj kvs

end

example : dumps (.obj [("a", .num 1), ("b", .arr [.null, .bool true, .str "x"])])
    = "\x7b\"a\": 1, \"b\": [null, true, \"x\"]\x7d" := by rfl

example : dumps (.str "é\n") = "\"\\u00e9\\n\"" := by rfl

example : dumps (.num (-45)) = "-45" := by rfl

example : dumps (.str "𝄞") = "\"\\ud834\\udd1e\"" := by rfl

/- ### json.loads with default arguments -/

/-- JSON whitespace, as skipped by the decoder. -/
def isWsC (c : Char) : Bool := c = ' ' || c = '\t' || c = '\n' || c = '\r'

/-- Drop leading JSON whitespace. -/
def skipWs (cs : List Char) : List Char := cs.dropWhile isWsC

/-- Value of a hexadecimal digit character, if it is one. -/
def hexVal? (c : Char) : Option Nat :=
  if 48 ≤ c.toNat && c.toNat ≤ 57 then some (c.toNat - 48)
  else if 97 ≤ c.toNat && c.toNat ≤ 102 then some (c.toNat - 87)
  else if 65 ≤ c.toNat && c.toNat ≤ 70 then some (c.toNat - 55)
  else none

/-- ASCII decimal digit test. -/
def isDigitC (c : Char) : Bool := 48 ≤ c.toNat && c.toNat ≤ 57

/-- Numeric value of a digit string. -/
def charsToNat (cs : List Char) : Nat := cs.foldl (fun a c => a * 10 + (c.toNat - 48)) 0

/-- The short backslash escapes accepted by the decoder (BACKSLASH table). -/
def simpleEsc (e : Char) : Option Char :=
  if e = '"' then some '"'
  else if e = '\\' then some '\\'
  else if e = '/' then some '/'
  else if e = 'b' then some (Char.ofNat 8)
  else if e = 'f' then some (Char.ofNat 12)
  else if e = 'n' then some '\n'
  else if e = 'r' then some (Char.ofNat 13)
  else if e = 't' then some '\t'
  else none

/-- The replacement character U+FFFD.  Lean strings cannot carry the lone
surrogates CPython would keep; these only arise on input that json.dumps
never produces. -/
def uRep : Char := Char.ofNat 65533

/-- Decode the character denoted by one \uXXXX value given the input that
follows it: a high surrogate followed by a low-surrogate escape combines
into one astral character (consuming the second escape), anything else
stands alone.  Lone surrogates, which Lean strings cannot carry and
json.dumps never emits, become U+FFFD. -/
def decodeU (u : Nat) (rest2 : List Char) : Char × List Char :=
  if 55296 ≤ u && u ≤ 56319 then
    match rest2 with
    | b1 :: b2 :: g1 :: g2 :: g3 :: g4 :: rest3 =>
      if b1 = '\\' && b2 = 'u' then
        match hexVal? g1, hexVal? g2, hexVal? g3, hexVal? g4 with
        | some a2, some b2, some c2, some d2 =>
          let u2 := ((a2 * 16 + b2) * 16 + c2) * 16 + d2
          if 56320 ≤ u2 && u2 ≤ 57343 then
            (Char.ofNat (65536 + (u - 55296) * 1024 + (u2 - 56320)), rest3)
          else (uRep, rest2)
        | _, _, _, _ => (uRep, rest2)
      else (uRep, rest2)
    | _ => (uRep, rest2)
  else if 56320 ≤ u && u ≤ 57343 then (uRep, rest2)
  else (Char.ofNat u, rest2)

/-- String scanner (scanstring, strict mode): input after the opening
quote, output the body and the remainder after the closing quote.  Raw
control characters are rejected, \uXXXX escapes are decoded with surrogate
pairs combined.  The scanner consumes at least one character per step, so
a fuel above the input length never runs out; callers pass length+1. -/
def parseJString : Nat → List Char → Option (List Char × List Char)
  | 0, _ => none
  | _, [] => none
  | f + 1, c :: rest =>
    if c = '"' then some ([], rest)
    else if c = '\\' then
      match rest with
      | [] => none
      | e :: rest1 =>
        if e = 'u' then
          match rest1 with
          | h1 :: h2 :: h3 :: h4 :: rest2 =>
            match hexVal? h1, hexVal? h2, hexVal? h3, hexVal? h4 with
            | some a, some b, some c3, some d =>
              match decodeU (((a * 16 + b) * 16 + c3) * 16 + d) rest2 with
              | (ch, rest3) => (parseJString f rest3).map (fun p => (ch :: p.1, p.2))
            | _, _, _, _ => none
          | _ => none
        else
          match simpleEsc e with
          | some ch => (parseJString f rest1).map (fun p => (ch :: p.1, p.2))
          | none => none
    else if c.toNat < 32 then none
    else (parseJString f rest).map (fun p => (c :: p.1, p.2))

/-- Does the remainder start a float continuation ('.' or an exponent)?
Floats are outside the embedding: the model rejects where CPython would
build a float. -/
def floatStart : List Char → Bool
  | [] => false
  | c :: _ => c = '.' || c = 'e' || c = 'E'

/-- Unsigned number scanner, NUMBER_RE's integer part: 0, or a nonzero
leading digit followed by digits. -/
def parsePosNum : List Char → Option (Int × List Char)
  | [] => none
  | c :: rest =>
    if c = '0' then if floatStart rest then none else some (0, rest)
    else if isDigitC c then
      let digs := c :: rest.takeWhile isDigitC
      let r := rest.dropWhile isDigitC
      if floatStart r then none else some ((charsToNat digs : Nat), r)
    else none

/-- dict(pairs) write: replace the value at the first occurrence of the
key, else append. -/
def setKey : List (String × Json) → String → Json → List (String × Json)
  | [], k, v => [(k, v)]
  | (k0, v0) :: rest, k, v =>
    if k0 = k then (k0, v) :: rest else (k0, v0) :: setKey rest k v

/-- dict(pairs): duplicate keys collapse to the last value at the first
position, as the object decoder's dict construction does. -/
def dedupPairs (l : List (String × Json)) : List (String × Json) :=
  l.foldl (fun acc kv => setKey acc kv.1 kv.2) []

mutual

/-- The scanner's value dispatch (py_scan_once), fuel-indexed on nesting so
that the definition is structurally recursive and kernel-reducible; the
fuel supplied by loads is always sufficient. -/
def parseValue : Nat → List Char → Option (Json × List Char)
  | 0, _ => none
  | f + 1, cs =>
    match skipWs cs with
    | [] => none
    | c :: rest =>
      if c = '{' then (parseObjItems f rest).map (fun p => (Json.obj (dedupPairs p.1), p.2))
      else if c = '[' then (parseArrItems f rest).map (fun p => (Json.arr p.1, p.2))
      else if c = '"' then
        (parseJString (rest.length + 1) rest).map (fun p => (Json.str (String.mk p.1), p.2))
      else if c = 't' then
        match rest with
        | 'r' :: 'u' :: 'e' :: r2 => some (Json.bool true, r2)
        | _ => none
      else if c = 'f' then
        match rest with
        | 'a' :: 'l' :: 's' :: 'e' :: r2 => some (Json.bool false, r2)
        | _ => none
      else if c = 'n' then
        match rest with
        | 'u' :: 'l' :: 'l' :: r2 => some (Json.null, r2)
        | _ => none
      else if c = '-' then (parsePosNum rest).map (fun p => (Json.num (-p.1), p.2))
      else if isDigitC c then (parsePosNum (c :: rest)).map (fun p => (Json.num p.1, p.2))
      else none

/-- Array body after '[': empty array or a nonempty item chain. -/
def parseArrItems : Nat → List Char → Option (List Json × List Char)
  | 0, _ => none
  | f + 1, cs =>
    match skipWs cs with
    | [] => none
    | c :: rest => if c = ']' then some ([], rest) else parseArrRest f (c :: rest)

/-- One array item and the continuation after it (',' item ... or ']'). -/
def parseArrRest : Nat → List Char → Option (List Json × List Char)
  | 0, _ => none
  | f + 1, cs =>
    match parseValue f cs with
    | none => none
    | some (v, r) =>
      match skipWs r with
      | [] => none
      | c :: r2 =>
        if c = ',' then
          match parseArrRest f r2 with
          | some (vs, r3) => some (v :: vs, r3)
          | none => none
        else if c = ']' then some ([v], r2)
        else none

/-- Object body after the opening brace: empty object or a member chain. -/
def parseObjItems : Nat → List Char → Option (List (String × Json) × List Char)
  | 0, _ => none
  | f + 1, cs =>
    match skipWs cs with
    | [] => none
    | c :: rest => if c = '}' then some ([], rest) else parseObjRest f (c :: rest)

/-- One '"key": value' member and the continuation after it. -/
def parseObjRest : Nat → List Char → Option (List (String × Json) × List Char)
  | 0, _ => none
  | f + 1, cs =>
    match skipWs cs with
    | [] => none
    | c :: rest =>
      if c = '"' then
        match parseJString (rest.length + 1) rest with
        | none => none
        | some (k, r) =>
          match skipWs r with
          | [] => none
          | c2 :: r2 =>
            if c2 = ':' then
              match parseValue f r2 with
              | none => none
              | some (v, r3) =>
                match skipWs r3 with
                | [] => none
                | c3 :: r4 =>
                  if c3 = ',' then
                    match parseObjRest f r4 with
                    | some (ps, r5) => some ((String.mk k, v) :: ps, r5)
                    | none => none
                  else if c3 = '}' then some ([(String.mk k, v)], r4)
                  else none
            else none
      else none

end

/-- json.loads: scan one value, then require only whitespace to follow.
The fuel 3*length+3 dominates the nesting depth of any parsable input. -/
def loads (s : String) : Option Json :=
  match parseValue (3 * s.data.length + 3) s.data with
  | some (v, rest) => if (skipWs rest).isEmpty then some v else none
  | none => none

example : loads "\x7b\"a\": 1, \"b\": [null, true, \"x\"]\x7d"
    = some (.obj [("a", .num 1), ("b", .arr [.null, .bool true, .str "x"])]) := by rfl

example : loads "\"\\u00e9\\n\"" = some (.str "é\n") := by rfl

example : loads "\"\\ud834\\udd1e\"" = some (.str "𝄞") := by rfl

example : loads "-45" = some (.num (-45)) := by rfl

example : loads " \x7b\"a\": 1, \"a\": 2\x7d " = some (.obj [("a", .num 2)]) := by rfl

example : loads "01" = none := by rfl

example : loads "1.5" = none := by rfl

/- ### Serialize/deserialize is the identity on well-formed values -/

mutual

/-- Fuel needed by the scanner on the rendering of a value. -/
def sizeJ : Json → Nat
  | .null => 1
  | .bool _ => 1
  | .num _ => 1
  | .str _ => 1
  | .arr xs => 2 + sizeR xs
  | .obj kvs => 2 + sizeM kvs

/-- Fuel needed by the item-chain scanner. -/
def sizeR : List Json → Nat
  | [] => 0
  | x :: xs => 1 + sizeJ x + sizeR xs

/-- Fuel needed by the member-chain scanner. -/
def sizeM : List (String × Json) → Nat
  | [] => 0
  | kv :: kvs => 1 + sizeJ kv.2 + sizeM kvs

end

/-- Concatenated items of an array body, without the brackets. -/
def itemsBody : List Json → List Char
  | [] => []
  | x :: xs => dumpsJ x ++ dumpsItems xs

/-- Concatenated members of an object body, without the braces. -/
def membersBody : List (String × Json) → List Char
  | [] => []
  | kv :: kvs => dumpsMember kv ++ dumpsMembers kvs

/-- A legal continuation after a scanned value: end of input or a
structural delimiter (which in particular cannot extend a number). -/
def bdry : List Char → Prop
  | [] => True
  | c :: _ => c = ',' ∨ c = ']' ∨ c = '}'

/-- All characters are JSON whitespace. -/
def allWs (l : List Char) : Prop := ∀ c ∈ l, isWsC c = true

theorem skipWs_app : ∀ sp l, allWs sp → skipWs (sp ++ l) = skipWs l
  | [], _, _ => by simp
  | c :: cs, l, h => by
    have hc : isWsC c = true := h c (by simp)
    show List.dropWhile isWsC (c :: (cs ++ l)) = _
    simp only [List.dropWhile, hc]
    exact skipWs_app cs l (fun d hd => h d (by simp [hd]))

theorem skipWs_cons_neg {c : Char} {l : List Char} (h : isWsC c = false) :
    skipWs (c :: l) = c :: l := by
  show List.dropWhile isWsC (c :: l) = _
  simp only [List.dropWhile, h]

theorem natDigs_spec : ∀ f n, n < f →
    natDigs f n ≠ [] ∧ (∀ c ∈ natDigs f n, isDigitC c = true) ∧
      ∀ a : Nat, (natDigs f n).foldl (fun a c => a * 10 + (c.toNat - 48)) a
        = a * 10 ^ (natDigs f n).length + n := by
  intro f
  induction f with
  | zero => intro n hn; omega
  | succ f ih =>
    intro n hn
    by_cases h10 : n < 10
    · have hd : ∀ m, m < 10 → isDigitC (digChar m) = true := by decide
      have hv : ∀ m, m < 10 → (digChar m).toNat = 48 + m := by decide
      refine ⟨by simp [natDigs, h10], ?_, ?_⟩
      · intro c hc
        simp [natDigs, h10] at hc
        subst hc; exact hd n h10
      · intro a
        simp only [natDigs, if_pos h10, List.foldl_cons, List.foldl_nil,
          List.length_singleton, hv n h10, pow_one]
        omega
    · obtain ⟨hne, hdig, hfold⟩ := ih (n / 10) (by omega)
      have h9 : n % 10 < 10 := by omega
      have hd : ∀ m, m < 10 → isDigitC (digChar m) = true := by decide
      have hv : ∀ m, m < 10 → (digChar m).toNat = 48 + m := by decide
      refine ⟨by simp [natDigs, h10], ?_, ?_⟩
      · intro c hc
        simp only [natDigs, if_neg h10, List.mem_append, List.mem_singleton] at hc
        rcases hc with hc | hc
        · exact hdig c hc
        · subst hc; exact hd _ h9
      · intro a
        simp only [natDigs, if_neg h10, List.foldl_append, List.length_append,
          List.foldl_cons, List.foldl_nil, List.length_singleton]
        rw [hfold a, hv _ h9, pow_succ, ← mul_assoc]
        generalize a * (10 : ℕ) ^ (natDigs f (n / 10)).length = Q
        omega

theorem natDigs_head_pos : ∀ f n, n < f → 1 ≤ n →
    ∃ c cs, natDigs f n = c :: cs ∧ c ≠ '0' := by
  intro f
  induction f with
  | zero => intro n hn; omega
  | succ f ih =>
    intro n hn h1
    by_cases h10 : n < 10
    · refine ⟨digChar n, [], by simp [natDigs, h10], ?_⟩
      have : ∀ m, m < 10 → 1 ≤ m → digChar m ≠ '0' := by decide
      exact this n h10 h1
    · obtain ⟨c, cs, hcons, hc0⟩ := ih (n / 10) (by omega) (by omega)
      exact ⟨c, cs ++ [digChar (n % 10)], by simp [natDigs, h10, hcons], hc0⟩

theorem charsToNat_natChars (n : Nat) : charsToNat (natChars n) = n := by
  obtain ⟨-, -, hfold⟩ := natDigs_spec (n + 1) n (by omega)
  have := hfold 0
  simpa [charsToNat, natChars] using this

theorem takeWhile_app_all {p : Char → Bool} : ∀ (l r : List Char), (∀ c ∈ l, p c = true) →
    List.takeWhile p (l ++ r) = l ++ List.takeWhile p r
  | [], r, _ => by simp
  | c :: cs, r, h => by
    have hc : p c = true := h c (by simp)
    show List.takeWhile p (c :: (cs ++ r)) = _
    simp only [List.takeWhile, hc, List.cons_append]
    rw [takeWhile_app_all cs r (fun d hd => h d (by simp [hd]))]

theorem dropWhile_app_all {p : Char → Bool} : ∀ (l r : List Char), (∀ c ∈ l, p c = true) →
    List.dropWhile p (l ++ r) = List.dropWhile p r
  | [], r, _ => by simp
  | c :: cs, r, h => by
    have hc : p c = true := h c (by simp)
    show List.dropWhile p (c :: (cs ++ r)) = _
    simp only [List.dropWhile, hc]
    exact dropWhile_app_all cs r (fun d hd => h d (by simp [hd]))

theorem bdry_digit_facts {rest : List Char} (h : bdry rest) :
    List.takeWhile isDigitC rest = [] ∧ List.dropWhile isDigitC rest = rest ∧
      floatStart rest = false := by
  cases rest with
  | nil => simp [floatStart, List.takeWhile, List.dropWhile]
  | cons c t =>
    have hc : isDigitC c = false ∧ floatStart (c :: t) = false := by
      rcases h with rfl | rfl | rfl <;> exact ⟨rfl, rfl⟩
    simp [List.takeWhile, List.dropWhile, hc.1, hc.2]

theorem parsePosNum_natChars (n : Nat) (rest : List Char) (h : bdry rest) :
    parsePosNum (natChars n ++ rest) = some ((n : Int), rest) := by
  obtain ⟨ht, hd, hf⟩ := bdry_digit_facts h
  by_cases h0 : n = 0
  · subst h0
    have h01 : natChars 0 = ['0'] := by decide
    rw [h01]
    simp [parsePosNum, hf]
  · obtain ⟨c, cs, hcons, hc0⟩ := natDigs_head_pos (n + 1) n (by omega) (by omega)
    obtain ⟨-, hdig, -⟩ := natDigs_spec (n + 1) n (by omega)
    have hcn : natChars n = c :: cs := hcons
    have hdigc : isDigitC c = true := hdig c (by rw [hcons]; simp)
    have hdigcs : ∀ d ∈ cs, isDigitC d = true := by
      intro d hdm
      exact hdig d (by rw [hcons]; simp [hdm])
    have hval : charsToNat (c :: cs) = n := by
      rw [← hcn]; exact charsToNat_natChars n
    rw [hcn, List.cons_append]
    show parsePosNum (c :: (cs ++ rest)) = _
    simp only [parsePosNum, if_neg hc0, hdigc, if_true,
      takeWhile_app_all cs rest hdigcs, dropWhile_app_all cs rest hdigcs, ht, hd,
      List.append_nil, hf, Bool.false_eq_true, if_false, hval]

theorem hexVal_hexDig : ∀ m, m < 16 → hexVal? (hexDig m) = some m := by decide

theorem char_toNat_lt (c : Char) : c.toNat < 1114112 := by
  have h := c.valid
  have he : c.toNat = c.val.toNat := rfl
  rcases h with h | h <;> (rw [he]; omega)

theorem char_not_surr (c : Char) : ¬(55296 ≤ c.toNat ∧ c.toNat ≤ 57343) := by
  have h := c.valid
  have he : c.toNat = c.val.toNat := rfl
  rcases h with h | h <;> (intro hc; rw [he] at hc; omega)

theorem decodeU_plain (u : Nat) (r : List Char) (h : ¬(55296 ≤ u ∧ u ≤ 57343)) :
    decodeU u r = (Char.ofNat u, r) := by
  unfold decodeU
  simp only [Bool.and_eq_true, decide_eq_true_eq]
  rw [if_neg (fun hc => h ⟨hc.1, by omega⟩), if_neg (fun hc => h ⟨by omega, hc.2⟩)]

theorem decodeU_pair (v : Nat) (hv : v < 1048576) (r : List Char) :
    decodeU (55296 + v / 1024) (('\\' :: 'u' :: hex4 (56320 + v % 1024)) ++ r)
      = (Char.ofNat (65536 + v), r) := by
  have g1 : hexVal? (hexDig ((56320 + v % 1024) / 4096 % 16))
      = some ((56320 + v % 1024) / 4096 % 16) := hexVal_hexDig _ (by omega)
  have g2 : hexVal? (hexDig ((56320 + v % 1024) / 256 % 16))
      = some ((56320 + v % 1024) / 256 % 16) := hexVal_hexDig _ (by omega)
  have g3 : hexVal? (hexDig ((56320 + v % 1024) / 16 % 16))
      = some ((56320 + v % 1024) / 16 % 16) := hexVal_hexDig _ (by omega)
  have g4 : hexVal? (hexDig ((56320 + v % 1024) % 16))
      = some ((56320 + v % 1024) % 16) := hexVal_hexDig _ (by omega)
  have hu2 : (((56320 + v % 1024) / 4096 % 16 * 16 + (56320 + v % 1024) / 256 % 16) * 16
      + (56320 + v % 1024) / 16 % 16) * 16 + (56320 + v % 1024) % 16
      = 56320 + v % 1024 := by omega
  have hcomb : 65536 + (55296 + v / 1024 - 55296) * 1024 + (56320 + v % 1024 - 56320)
      = 65536 + v := by
    have := Nat.div_add_mod v 1024
    omega
  unfold decodeU
  simp only [hex4, List.cons_append, List.nil_append]
  simp only [Bool.and_eq_true, decide_eq_true_eq]
  rw [if_pos (show 55296 ≤ 55296 + v / 1024 ∧ 55296 + v / 1024 ≤ 56319 by omega)]
  simp only [g1, g2, g3, g4, hu2]
  rw [if_pos (⟨trivial, trivial⟩ : True ∧ True)]
  rw [if_pos (show 56320 ≤ 56320 + v % 1024 ∧ 56320 + v % 1024 ≤ 57343 by omega)]
  rw [hcomb]

theorem parseJString_u_step (f : Nat) (h1 h2 h3 h4 : Char) (a b c3 d : Nat)
    (rest2 : List Char) (e1 : hexVal? h1 = some a) (e2 : hexVal? h2 = some b)
    (e3 : hexVal? h3 = some c3) (e4 : hexVal? h4 = some d) :
    parseJString (f + 1) ('\\' :: 'u' :: h1 :: h2 :: h3 :: h4 :: rest2)
      = (parseJString f (decodeU (((a * 16 + b) * 16 + c3) * 16 + d) rest2).2).map
          (fun p => ((decodeU (((a * 16 + b) * 16 + c3) * 16 + d) rest2).1 :: p.1, p.2)) := by
  simp only [parseJString, e1, e2, e3, e4]
  rcases hdu : decodeU (((a * 16 + b) * 16 + c3) * 16 + d) rest2 with ⟨ch, r3⟩
  simp [hdu]

theorem parseJString_esc : ∀ (cs : List Char) (f : Nat) (rest : List Char),
    (escString cs).length < f →
    parseJString f (escString cs ++ ('"' :: rest)) = some (cs, rest) := by
  intro cs
  induction cs with
  | nil =>
    intro f rest hf
    simp only [escString, List.length_nil] at hf
    obtain ⟨f', rfl⟩ : ∃ f', f = f' + 1 := ⟨f - 1, by omega⟩
    simp [escString, parseJString]
  | cons c cs ih =>
    intro f rest hf
    rw [show escString (c :: cs) = escChar c ++ escString cs from rfl] at hf ⊢
    by_cases h1 : c = '\\'
    · subst h1
      rw [show escChar '\\' = ['\\', '\\'] from rfl] at hf ⊢
      simp only [List.length_append, List.length_cons, List.length_nil] at hf
      obtain ⟨f', rfl⟩ : ∃ f', f = f' + 1 := ⟨f - 1, by omega⟩
      simp [parseJString, simpleEsc, ih f' rest (by omega)]
    by_cases h2 : c = '"'
    · subst h2
      rw [show escChar '"' = ['\\', '"'] from rfl] at hf ⊢
      simp only [List.length_append, List.length_cons, List.length_nil] at hf
      obtain ⟨f', rfl⟩ : ∃ f', f = f' + 1 := ⟨f - 1, by omega⟩
      simp [parseJString, simpleEsc, ih f' rest (by omega)]
    by_cases h3 : c.toNat = 8
    · have hc : c = Char.ofNat 8 := by rw [← h3, Char.ofNat_toNat]
      subst hc
      rw [show escChar (Char.ofNat 8) = ['\\', 'b'] from rfl] at hf ⊢
      simp only [List.length_append, List.length_cons, List.length_nil] at hf
      obtain ⟨f', rfl⟩ : ∃ f', f = f' + 1 := ⟨f - 1, by omega⟩
      simp [parseJString, simpleEsc, ih f' rest (by omega)]
    by_cases h4 : c.toNat = 9
    · have hc : c = '\t' := by
        have : c = Char.ofNat 9 := by rw [← h4, Char.ofNat_toNat]
        simpa using this
      subst hc
      rw [show escChar '\t' = ['\\', 't'] from rfl] at hf ⊢
      simp only [List.length_append, List.length_cons, List.length_nil] at hf
      obtain ⟨f', rfl⟩ : ∃ f', f = f' + 1 := ⟨f - 1, by omega⟩
      simp [parseJString, simpleEsc, ih f' rest (by omega)]
    by_cases h5 : c.toNat = 10
    · have hc : c = '\n' := by
        have : c = Char.ofNat 10 := by rw [← h5, Char.ofNat_toNat]
        simpa using this
      subst hc
      rw [show escChar '\n' = ['\\', 'n'] from rfl] at hf ⊢
      simp only [List.length_append, List.length_cons, List.length_nil] at hf
      obtain ⟨f', rfl⟩ : ∃ f', f = f' + 1 := ⟨f - 1, by omega⟩
      simp [parseJString, simpleEsc, ih f' rest (by omega)]
    by_cases h6 : c.toNat = 12
    · have hc : c = Char.ofNat 12 := by rw [← h6, Char.ofNat_toNat]
      subst hc
      rw [show escChar (Char.ofNat 12) = ['\\', 'f'] from rfl] at hf ⊢
      simp only [List.length_append, List.length_cons, List.length_nil] at hf
      obtain ⟨f', rfl⟩ : ∃ f', f = f' + 1 := ⟨f - 1, by omega⟩
      simp [parseJString, simpleEsc, ih f' rest (by omega)]
    by_cases h7 : c.toNat = 13
    · have hc : c = Char.ofNat 13 := by rw [← h7, Char.ofNat_toNat]
      subst hc
      rw [show escChar (Char.ofNat 13) = ['\\', 'r'] from rfl] at hf ⊢
      simp only [List.length_append, List.length_cons, List.length_nil] at hf
      obtain ⟨f', rfl⟩ : ∃ f', f = f' + 1 := ⟨f - 1, by omega⟩
      simp [parseJString, simpleEsc, ih f' rest (by omega)]
    by_cases h8 : 32 ≤ c.toNat ∧ c.toNat ≤ 126
    · have hesc : escChar c = [c] := by
        simp only [escChar, if_neg h1, if_neg h2, if_neg h3, if_neg h4, if_neg h5,
          if_neg h6, if_neg h7]
        have hb : (32 ≤ c.toNat && c.toNat ≤ 126) = true := by
          simp only [Bool.and_eq_true, decide_eq_true_eq]
          exact ⟨h8.1, h8.2⟩
        rw [if_pos hb]
      rw [hesc] at hf ⊢
      simp only [List.length_append, List.length_cons, List.length_nil] at hf
      obtain ⟨f', rfl⟩ : ∃ f', f = f' + 1 := ⟨f - 1, by omega⟩
      show parseJString (f' + 1) (c :: (escString cs ++ '"' :: rest)) = _
      simp only [parseJString, if_neg h2, if_neg h1, if_neg (show ¬c.toNat < 32 by omega)]
      rw [ih f' rest (by omega)]
      rfl
    by_cases h9 : c.toNat < 65536
    · -- basic-plane character outside printable ASCII: a single \uXXXX escape
      have hb8 : (32 ≤ c.toNat && c.toNat ≤ 126) = false := by
        rcases Nat.lt_or_ge c.toNat 32 with hlt | hge
        · simp [Nat.not_le.mpr hlt]
        · have : ¬c.toNat ≤ 126 := by
            rcases Nat.lt_or_ge 126 c.toNat with hgt | hle
            · omega
            · omega
          simp [this]
      have hesc : escChar c = '\\' :: 'u' :: hex4 c.toNat := by
        simp only [escChar, if_neg h1, if_neg h2, if_neg h3, if_neg h4, if_neg h5,
          if_neg h6, if_neg h7, hb8, Bool.false_eq_true, if_false, if_pos h9]
      rw [hesc] at hf ⊢
      simp only [hex4, List.length_append, List.length_cons, List.length_nil] at hf
      obtain ⟨f', rfl⟩ : ∃ f', f = f' + 1 := ⟨f - 1, by omega⟩
      have e1 : hexVal? (hexDig (c.toNat / 4096 % 16)) = some (c.toNat / 4096 % 16) :=
        hexVal_hexDig _ (by omega)
      have e2 : hexVal? (hexDig (c.toNat / 256 % 16)) = some (c.toNat / 256 % 16) :=
        hexVal_hexDig _ (by omega)
      have e3 : hexVal? (hexDig (c.toNat / 16 % 16)) = some (c.toNat / 16 % 16) :=
        hexVal_hexDig _ (by omega)
      have e4 : hexVal? (hexDig (c.toNat % 16)) = some (c.toNat % 16) :=
        hexVal_hexDig _ (by omega)
      have hu : ((c.toNat / 4096 % 16 * 16 + c.toNat / 256 % 16) * 16 + c.toNat / 16 % 16) * 16
          + c.toNat % 16 = c.toNat := by omega
      have hde := decodeU_plain c.toNat (escString cs ++ '"' :: rest) (char_not_surr c)
      simp only [hex4, List.cons_append, List.append_assoc, List.nil_append]
      rw [parseJString_u_step f' _ _ _ _ _ _ _ _ _ e1 e2 e3 e4, hu, hde]
      simp [ih f' rest (by omega), Char.ofNat_toNat]
    · -- astral character: surrogate-pair escape
      have hlt := char_toNat_lt c
      have hb8 : (32 ≤ c.toNat && c.toNat ≤ 126) = false := by
        have : ¬c.toNat ≤ 126 := by omega
        simp [this]
      have hesc : escChar c =
          ('\\' :: 'u' :: hex4 (55296 + (c.toNat - 65536) / 1024)) ++
            ('\\' :: 'u' :: hex4 (56320 + (c.toNat - 65536) % 1024)) := by
        simp only [escChar, if_neg h1, if_neg h2, if_neg h3, if_neg h4, if_neg h5,
          if_neg h6, if_neg h7, hb8, Bool.false_eq_true, if_false, if_neg h9]
      rw [hesc] at hf ⊢
      simp only [hex4, List.length_append, List.length_cons, List.length_nil] at hf
      obtain ⟨f', rfl⟩ : ∃ f', f = f' + 1 := ⟨f - 1, by omega⟩
      have e1 : hexVal? (hexDig ((55296 + (c.toNat - 65536) / 1024) / 4096 % 16))
          = some ((55296 + (c.toNat - 65536) / 1024) / 4096 % 16) :=
        hexVal_hexDig _ (by omega)
      have e2 : hexVal? (hexDig ((55296 + (c.toNat - 65536) / 1024) / 256 % 16))
          = some ((55296 + (c.toNat - 65536) / 1024) / 256 % 16) :=
        hexVal_hexDig _ (by omega)
      have e3 : hexVal? (hexDig ((55296 + (c.toNat - 65536) / 1024) / 16 % 16))
          = some ((55296 + (c.toNat - 65536) / 1024) / 16 % 16) :=
        hexVal_hexDig _ (by omega)
      have e4 : hexVal? (hexDig ((55296 + (c.toNat - 65536) / 1024) % 16))
          = some ((55296 + (c.toNat - 65536) / 1024) % 16) :=
        hexVal_hexDig _ (by omega)
      have hu1 : (((55296 + (c.toNat - 65536) / 1024) / 4096 % 16 * 16
              + (55296 + (c.toNat - 65536) / 1024) / 256 % 16) * 16
              + (55296 + (c.toNat - 65536) / 1024) / 16 % 16) * 16
              + (55296 + (c.toNat - 65536) / 1024) % 16
          = 55296 + (c.toNat - 65536) / 1024 := by omega
      have hde := decodeU_pair (c.toNat - 65536) (by omega) (escString cs ++ '"' :: rest)
      rw [show 65536 + (c.toNat - 65536) = c.toNat by omega] at hde
      simp only [hex4, List.cons_append, List.nil_append] at hde
      simp only [hex4, List.cons_append, List.append_assoc, List.nil_append]
      rw [parseJString_u_step f' _ _ _ _ _ _ _ _ _ e1 e2 e3 e4, hu1, hde]
      simp [ih f' rest (by omega), Char.ofNat_toNat]

theorem sizeJ_pos : ∀ v : Json, 1 ≤ sizeJ v := by
  intro v; cases v <;> simp only [sizeJ] <;> omega

theorem digit_aux {c : Char} (h : isDigitC c = true) :
    isWsC c = false ∧ c ≠ '{' ∧ c ≠ '[' ∧ c ≠ '"' ∧ c ≠ 't' ∧ c ≠ 'f' ∧ c ≠ 'n' ∧
      c ≠ '-' ∧ c ≠ ']' ∧ c ≠ '}' ∧ c ≠ ',' := by
  have hb : 48 ≤ c.toNat ∧ c.toNat ≤ 57 := by
    simpa [isDigitC, Bool.and_eq_true, decide_eq_true_eq] using h
  have hws : isWsC c = false := by
    cases hw : isWsC c
    · rfl
    · exfalso
      simp only [isWsC, Bool.or_eq_true, decide_eq_true_eq] at hw
      rcases hw with ((hc | hc) | hc) | hc <;> (subst hc; exact absurd hb (by decide))
  refine ⟨hws, ?_, ?_, ?_, ?_, ?_, ?_, ?_, ?_, ?_, ?_⟩ <;>
    (intro hc; subst hc; exact absurd hb (by decide))

theorem dumpsJ_head : ∀ v : Json, ∃ c cs, dumpsJ v = c :: cs ∧ isWsC c = false ∧
    c ≠ ']' ∧ c ≠ '}' := by
  intro v
  cases v with
  | null => exact ⟨'n', _, rfl, by decide, by decide, by decide⟩
  | bool b =>
    cases b with
    | false => exact ⟨'f', _, rfl, by decide, by decide, by decide⟩
    | true => exact ⟨'t', _, rfl, by decide, by decide, by decide⟩
  | num n =>
    show ∃ c cs, intChars n = c :: cs ∧ _
    rw [intChars]
    by_cases hn : n < 0
    · rw [if_pos hn]
      exact ⟨'-', _, rfl, by decide, by decide, by decide⟩
    · rw [if_neg hn]
      obtain ⟨hne, hdig, -⟩ := natDigs_spec (n.toNat + 1) n.toNat (by omega)
      obtain ⟨c, cs, hcons⟩ := List.exists_cons_of_ne_nil hne
      have hd := digit_aux (hdig c (by rw [hcons]; simp))
      exact ⟨c, cs, hcons, hd.1, hd.2.2.2.2.2.2.2.2.1, hd.2.2.2.2.2.2.2.2.2.1⟩
  | str s => exact ⟨'"', _, rfl, by decide, by decide, by decide⟩
  | arr xs =>
    cases xs with
    | nil => exact ⟨'[', _, rfl, by decide, by decide, by decide⟩
    | cons x xs => exact ⟨'[', _, rfl, by decide, by decide, by decide⟩
  | obj kvs =>
    cases kvs with
    | nil => exact ⟨'{', _, rfl, by decide, by decide, by decide⟩
    | cons kv kvs => exact ⟨'{', _, rfl, by decide, by decide, by decide⟩

theorem dumpsJ_arr (xs : List Json) : dumpsJ (.arr xs) = '[' :: (itemsBody xs ++ [']']) := by
  cases xs <;> simp [dumpsJ, itemsBody]

theorem dumpsJ_obj (kvs : List (String × Json)) :
    dumpsJ (.obj kvs) = '{' :: (membersBody kvs ++ ['}']) := by
  cases kvs <;> simp [dumpsJ, membersBody]

theorem parseValue_skip (f : Nat) (sp l : List Char) (h : allWs sp) :
    parseValue f (sp ++ l) = parseValue f l := by
  cases f with
  | zero => rfl
  | succ f => simp only [parseValue, skipWs_app sp l h]

theorem parseArrRest_skip (f : Nat) (sp l : List Char) (h : allWs sp) :
    parseArrRest f (sp ++ l) = parseArrRest f l := by
  cases f with
  | zero => rfl
  | succ f => simp only [parseArrRest, parseValue_skip f sp l h]

theorem parseObjRest_skip (f : Nat) (sp l : List Char) (h : allWs sp) :
    parseObjRest f (sp ++ l) = parseObjRest f l := by
  cases f with
  | zero => rfl
  | succ f => simp only [parseObjRest, skipWs_app sp l h]

theorem memB_false : ∀ (ks : List String) (k : String), memB k ks = false → ∀ x ∈ ks, x ≠ k
  | [], _, _, x, hx => by simp at hx
  | a :: ks, k, h, x, hx => by
    simp only [memB, Bool.or_eq_false_iff] at h
    rcases List.mem_cons.mp hx with rfl | hx2
    · intro hc; rw [hc] at h; simp at h
    · exact memB_false ks k h.2 x hx2

theorem setKey_absent : ∀ (acc : List (String × Json)) (k : String) (v : Json),
    (∀ p ∈ acc, p.1 ≠ k) → setKey acc k v = acc ++ [(k, v)]
  | [], _, _, _ => rfl
  | (k0, v0) :: rest, k, v, h => by
    have hne : k0 ≠ k := h (k0, v0) (by simp)
    simp only [setKey, if_neg hne, List.cons_append]
    rw [setKey_absent rest k v (fun p hp => h p (by simp [hp]))]

theorem foldl_setKey_gen : ∀ (l acc : List (String × Json)),
    (∀ p ∈ acc, ∀ q ∈ l, p.1 ≠ q.1) → nodupKeysB (l.map Prod.fst) = true →
    l.foldl (fun acc kv => setKey acc kv.1 kv.2) acc = acc ++ l
  | [], acc, _, _ => by simp
  | (k, v) :: l, acc, hdisj, hnd => by
    simp only [List.map_cons, nodupKeysB, Bool.and_eq_true, Bool.not_eq_true'] at hnd
    have hstep : setKey acc k v = acc ++ [(k, v)] :=
      setKey_absent acc k v (fun p hp => hdisj p hp (k, v) (by simp))
    show List.foldl _ (setKey acc k v) l = _
    rw [hstep, foldl_setKey_gen l (acc ++ [(k, v)]) ?_ hnd.2]
    · simp
    · intro p hp q hq
      rcases List.mem_append.mp hp with hp2 | hp2
      · exact hdisj p hp2 q (by simp [hq])
      · have : p = (k, v) := by simpa using hp2
        subst this
        exact fun hc => memB_false _ _ hnd.1 q.1 (List.mem_map_of_mem Prod.fst hq) hc.symm

theorem dedupPairs_nodup (l : List (String × Json)) (h : nodupKeysB (l.map Prod.fst) = true) :
    dedupPairs l = l := by
  have := foldl_setKey_gen l [] (by simp) h
  simpa [dedupPairs] using this

theorem bdry_comma (t : List Char) : bdry (',' :: t) := Or.inl rfl

theorem bdry_rb (t : List Char) : bdry (']' :: t) := Or.inr (Or.inl rfl)

theorem bdry_cb (t : List Char) : bdry ('}' :: t) := Or.inr (Or.inr rfl)

theorem allWs_space : allWs [' '] := by
  intro c hc
  simp only [List.mem_singleton] at hc
  subst hc
  rfl

theorem parseValue_cons (f : Nat) (c : Char) (t : List Char) (hws : isWsC c = false) :
    parseValue (f + 1) (c :: t)
      = if c = '{' then (parseObjItems f t).map (fun p => (Json.obj (dedupPairs p.1), p.2))
        else if c = '[' then (parseArrItems f t).map (fun p => (Json.arr p.1, p.2))
        else if c = '"' then
          (parseJString (t.length + 1) t).map (fun p => (Json.str (String.mk p.1), p.2))
        else if c = 't' then
          (match t with | 'r' :: 'u' :: 'e' :: r2 => some (Json.bool true, r2) | _ => none)
        else if c = 'f' then
          (match t with | 'a' :: 'l' :: 's' :: 'e' :: r2 => some (Json.bool false, r2) | _ => none)
        else if c = 'n' then
          (match t with | 'u' :: 'l' :: 'l' :: r2 => some (Json.null, r2) | _ => none)
        else if c = '-' then (parsePosNum t).map (fun p => (Json.num (-p.1), p.2))
        else if isDigitC c then (parsePosNum (c :: t)).map (fun p => (Json.num p.1, p.2))
        else none := by
  simp only [parseValue, skipWs_cons_neg hws]

theorem parseArrItems_cons (f : Nat) (c : Char) (t : List Char) (hws : isWsC c = false) :
    parseArrItems (f + 1) (c :: t)
      = if c = ']' then some ([], t) else parseArrRest f (c :: t) := by
  simp only [parseArrItems, skipWs_cons_neg hws]

/-- One fuel level of the scanner inverts one rendering level: the value
scanner on a rendered value, the item scanners on rendered chains. -/
theorem parse_dumps_all : ∀ f : Nat,
    (∀ (v : Json) (rest : List Char), wfJ v = true → sizeJ v ≤ f → bdry rest →
      parseValue f (dumpsJ v ++ rest) = some (v, rest)) ∧
    (∀ (xs : List Json) (rest : List Char), wfArr xs = true → 1 + sizeR xs ≤ f → bdry rest →
      parseArrItems f (itemsBody xs ++ (']' :: rest)) = some (xs, rest)) ∧
    (∀ (x : Json) (xs : List Json) (rest : List Char), wfJ x = true → wfArr xs = true →
      sizeR (x :: xs) ≤ f → bdry rest →
      parseArrRest f (dumpsJ x ++ (dumpsItems xs ++ (']' :: rest))) = some (x :: xs, rest)) ∧
    (∀ (kvs : List (String × Json)) (rest : List Char), wfObj kvs = true →
      1 + sizeM kvs ≤ f → bdry rest →
      parseObjItems f (membersBody kvs ++ ('}' :: rest)) = some (kvs, rest)) ∧
    (∀ (k : String) (v : Json) (kvs : List (String × Json)) (rest : List Char),
      wfJ v = true → wfObj kvs = true → sizeM ((k, v) :: kvs) ≤ f → bdry rest →
      parseObjRest f (dumpsMember (k, v) ++ (dumpsMembers kvs ++ ('}' :: rest)))
        = some ((k, v) :: kvs, rest)) := by
  intro f
  induction f with
  | zero =>
    refine ⟨?_, ?_, ?_, ?_, ?_⟩
    · intro v rest _ hsz _
      have := sizeJ_pos v
      omega
    · intro xs rest _ hsz _
      omega
    · intro x xs rest _ _ hsz _
      simp only [sizeR] at hsz
      omega
    · intro kvs rest _ hsz _
      omega
    · intro k v kvs rest _ _ hsz _
      simp only [sizeM] at hsz
      omega
  | succ f ihf =>
    obtain ⟨ihA, ihB, ihC, ihD, ihE⟩ := ihf
    refine ⟨?_, ?_, ?_, ?_, ?_⟩
    · -- parseValue on a rendered value
      intro v rest hwf hsz hb
      cases v with
      | null =>
        obtain ⟨ht1, ht2, ht3⟩ := bdry_digit_facts hb
        exact rfl
      | bool b => cases b <;> exact rfl
      | num n =>
        show parseValue (f + 1) (intChars n ++ rest) = _
        rw [intChars]
        by_cases hn : n < 0
        · rw [if_pos hn]
          have hstep : parseValue (f + 1) ('-' :: (natChars (-n).toNat ++ rest))
              = (parsePosNum (natChars (-n).toNat ++ rest)).map
                  (fun p => (Json.num (-p.1), p.2)) := rfl
          show parseValue (f + 1) ('-' :: (natChars (-n).toNat ++ rest)) = _
          rw [hstep, parsePosNum_natChars _ rest hb]
          have hcast : (((-n).toNat : Int)) = -n := Int.toNat_of_nonneg (by omega)
          simp [hcast]
        · rw [if_neg hn]
          obtain ⟨hne, hdig, -⟩ := natDigs_spec (n.toNat + 1) n.toNat (by omega)
          obtain ⟨c, cs2, hcons⟩ := List.exists_cons_of_ne_nil hne
          have hdigc : isDigitC c = true := hdig c (by rw [hcons]; simp)
          obtain ⟨hws, hB1, hB2, hB3, hB4, hB5, hB6, hB7, -, -, -⟩ := digit_aux hdigc
          show parseValue (f + 1) (natChars n.toNat ++ rest) = _
          rw [show natChars n.toNat = natDigs (n.toNat + 1) n.toNat from rfl, hcons,
            List.cons_append]
          rw [parseValue_cons f c _ hws]
          rw [if_neg hB1, if_neg hB2, if_neg hB3, if_neg hB4,
            if_neg hB5, if_neg hB6, if_neg hB7, if_pos hdigc]
          rw [show c :: (cs2 ++ rest) = (c :: cs2) ++ rest from rfl, ← hcons]
          rw [show natDigs (n.toNat + 1) n.toNat = natChars n.toNat from rfl,
            parsePosNum_natChars _ rest hb]
          have hcast : ((n.toNat : Int)) = n := Int.toNat_of_nonneg (by omega)
          simp [hcast]
      | str s =>
        have hstep : parseValue (f + 1) ('"' :: (escString s.data ++ ('"' :: rest)))
            = (parseJString ((escString s.data ++ ('"' :: rest)).length + 1)
                  (escString s.data ++ ('"' :: rest))).map
                (fun p => (Json.str (String.mk p.1), p.2)) := rfl
        show parseValue (f + 1) ('"' :: (escString s.data ++ ['"']) ++ rest) = _
        rw [show ('"' :: (escString s.data ++ ['"'])) ++ rest
            = '"' :: (escString s.data ++ ('"' :: rest)) by simp]
        rw [hstep, parseJString_esc s.data _ rest (by simp; omega)]
        rfl
      | arr xs =>
        rw [dumpsJ_arr]
        rw [show ('[' :: (itemsBody xs ++ [']'])) ++ rest
            = '[' :: (itemsBody xs ++ (']' :: rest)) by simp]
        have hstep : parseValue (f + 1) ('[' :: (itemsBody xs ++ (']' :: rest)))
            = (parseArrItems f (itemsBody xs ++ (']' :: rest))).map
                (fun p => (Json.arr p.1, p.2)) := rfl
        rw [hstep, ihB xs rest (by simpa [wfJ] using hwf) (by simp [sizeJ] at hsz; omega) hb]
        rfl
      | obj kvs =>
        rw [dumpsJ_obj]
        rw [show ('{' :: (membersBody kvs ++ ['}'])) ++ rest
            = '{' :: (membersBody kvs ++ ('}' :: rest)) by simp]
        have hstep : parseValue (f + 1) ('{' :: (membersBody kvs ++ ('}' :: rest)))
            = (parseObjItems f (membersBody kvs ++ ('}' :: rest))).map
                (fun p => (Json.obj (dedupPairs p.1), p.2)) := rfl
        simp only [wfJ, Bool.and_eq_true] at hwf
        rw [hstep, ihD kvs rest hwf.2 (by simp [sizeJ] at hsz; omega) hb]
        simp [dedupPairs_nodup kvs hwf.1]
    · -- parseArrItems on a rendered item chain
      intro xs rest hwf hsz hb
      cases xs with
      | nil => exact rfl
      | cons x xs =>
        obtain ⟨c, cs2, hcons, hws, hne1, hne2⟩ := dumpsJ_head x
        show parseArrItems (f + 1) ((dumpsJ x ++ dumpsItems xs) ++ (']' :: rest)) = _
        rw [hcons]
        rw [show ((c :: cs2) ++ dumpsItems xs) ++ (']' :: rest)
            = c :: (cs2 ++ (dumpsItems xs ++ (']' :: rest))) by simp]
        rw [parseArrItems_cons f c _ hws, if_neg hne1]
        rw [show c :: (cs2 ++ (dumpsItems xs ++ (']' :: rest)))
            = (c :: cs2) ++ (dumpsItems xs ++ (']' :: rest)) from rfl, ← hcons]
        simp only [wfArr, Bool.and_eq_true] at hwf
        exact ihC x xs rest hwf.1 hwf.2 (by omega) hb
    · -- parseArrRest on a rendered nonempty item chain
      intro x xs rest hwfx hwfxs hsz hb
      have hbd : bdry (dumpsItems xs ++ (']' :: rest)) := by
        cases xs with
        | nil => exact bdry_rb rest
        | cons y ys => exact bdry_comma _
      have hszx : sizeJ x ≤ f := by simp only [sizeR] at hsz; omega
      have hstep : parseArrRest (f + 1) (dumpsJ x ++ (dumpsItems xs ++ (']' :: rest)))
          = match parseValue f (dumpsJ x ++ (dumpsItems xs ++ (']' :: rest))) with
            | none => none
            | some (v, r) =>
              match skipWs r with
              | [] => none
              | c :: r2 =>
                if c = ',' then
                  match parseArrRest f r2 with
                  | some (vs, r3) => some (v :: vs, r3)
                  | none => none
                else if c = ']' then some ([v], r2)
                else none := rfl
      rw [hstep, ihA x _ hwfx hszx hbd]
      cases xs with
      | nil => rfl
      | cons y ys =>
        rw [show dumpsItems (y :: ys) ++ (']' :: rest)
            = ',' :: (' ' :: (dumpsJ y ++ (dumpsItems ys ++ (']' :: rest))))
            by simp [dumpsItems]]
        show (match parseArrRest f
                ([' '] ++ (dumpsJ y ++ (dumpsItems ys ++ (']' :: rest)))) with
              | some (vs, r3) => some (x :: vs, r3)
              | none => none) = _
        rw [parseArrRest_skip f [' '] _ allWs_space]
        simp only [wfArr, Bool.and_eq_true] at hwfxs
        rw [ihC y ys rest hwfxs.1 hwfxs.2 (by simp only [sizeR] at hsz ⊢; omega) hb]
    · -- parseObjItems on a rendered member chain
      intro kvs rest hwf hsz hb
      cases kvs with
      | nil => exact rfl
      | cons kv kvs =>
        obtain ⟨k, v⟩ := kv
        show parseObjItems (f + 1) ((dumpsMember (k, v) ++ dumpsMembers kvs) ++ ('}' :: rest)) = _
        rw [show (dumpsMember (k, v) ++ dumpsMembers kvs) ++ ('}' :: rest)
            = '"' :: ((escString k.data ++ ('"' :: ':' :: ' ' :: dumpsJ v))
                ++ (dumpsMembers kvs ++ ('}' :: rest))) by simp [dumpsMember]]
        have hstep : parseObjItems (f + 1)
            ('"' :: ((escString k.data ++ ('"' :: ':' :: ' ' :: dumpsJ v))
                ++ (dumpsMembers kvs ++ ('}' :: rest))))
            = parseObjRest f ('"' :: ((escString k.data ++ ('"' :: ':' :: ' ' :: dumpsJ v))
                ++ (dumpsMembers kvs ++ ('}' :: rest)))) := rfl
        rw [hstep]
        rw [show '"' :: ((escString k.data ++ ('"' :: ':' :: ' ' :: dumpsJ v))
                ++ (dumpsMembers kvs ++ ('}' :: rest)))
            = dumpsMember (k, v) ++ (dumpsMembers kvs ++ ('}' :: rest)) by simp [dumpsMember]]
        simp only [wfObj, Bool.and_eq_true] at hwf
        exact ihE k v kvs rest hwf.1 hwf.2 (by omega) hb
    · -- parseObjRest on a rendered nonempty member chain
      intro k v kvs rest hwfv hwfkvs hsz hb
      show parseObjRest (f + 1)
          (('"' :: (escString k.data ++ ('"' :: ':' :: ' ' :: dumpsJ v)))
            ++ (dumpsMembers kvs ++ ('}' :: rest))) = _
      rw [show ('"' :: (escString k.data ++ ('"' :: ':' :: ' ' :: dumpsJ v)))
            ++ (dumpsMembers kvs ++ ('}' :: rest))
          = '"' :: (escString k.data
              ++ ('"' :: (':' :: ' ' :: (dumpsJ v ++ (dumpsMembers kvs ++ ('}' :: rest))))))
          by simp]
      have hstep : ∀ t : List Char, parseObjRest (f + 1) ('"' :: t)
          = match parseJString (t.length + 1) t with
            | none => none
            | some (kk, r) =>
              match skipWs r with
              | [] => none
              | c2 :: r2 =>
                if c2 = ':' then
                  match parseValue f r2 with
                  | none => none
                  | some (vv, r3) =>
                    match skipWs r3 with
                    | [] => none
                    | c3 :: r4 =>
                      if c3 = ',' then
                        match parseObjRest f r4 with
                        | some (ps, r5) => some ((String.mk kk, vv) :: ps, r5)
                        | none => none
                      else if c3 = '}' then some ([(String.mk kk, vv)], r4)
                      else none
                else none := fun t => rfl
      rw [hstep, parseJString_esc k.data _ _ (by simp; omega)]
      have hbd : bdry (dumpsMembers kvs ++ ('}' :: rest)) := by
        cases kvs with
        | nil => exact bdry_cb rest
        | cons kv2 kvs2 => exact bdry_comma _
      have hszv : sizeJ v ≤ f := by simp only [sizeM] at hsz; omega
      show (match parseValue f
              ([' '] ++ (dumpsJ v ++ (dumpsMembers kvs ++ ('}' :: rest)))) with
            | none => none
            | some (vv, r3) =>
              match skipWs r3 with
              | [] => none
              | c3 :: r4 =>
                if c3 = ',' then
                  match parseObjRest f r4 with
                  | some (ps, r5) => some ((k, vv) :: ps, r5)
                  | none => none
                else if c3 = '}' then some ([(k, vv)], r4)
                else none) = _
      rw [parseValue_skip f [' '] _ allWs_space, ihA v _ hwfv hszv hbd]
      cases kvs with
      | nil => rfl
      | cons kv2 kvs2 =>
        obtain ⟨k2, v2⟩ := kv2
        rw [show dumpsMembers ((k2, v2) :: kvs2) ++ ('}' :: rest)
            = ',' :: (' ' :: (dumpsMember (k2, v2) ++ (dumpsMembers kvs2 ++ ('}' :: rest))))
            by simp [dumpsMembers]]
        show (match parseObjRest f
                ([' '] ++ (dumpsMember (k2, v2) ++ (dumpsMembers kvs2 ++ ('}' :: rest)))) with
              | some (ps, r5) => some ((k, v) :: ps, r5)
              | none => none) = _
        rw [parseObjRest_skip f [' '] _ allWs_space]
        simp only [wfObj, Bool.and_eq_true] at hwfkvs
        rw [ihE k2 v2 kvs2 rest hwfkvs.1 hwfkvs.2 (by simp only [sizeM] at hsz ⊢; omega) hb]

theorem size_len_aux : ∀ n : Nat,
    (∀ v : Json, sizeJ v ≤ n → sizeJ v ≤ 3 * (dumpsJ v).length) ∧
    (∀ xs : List Json, sizeR xs ≤ n → sizeR xs ≤ 3 * (dumpsItems xs).length - 2) ∧
    (∀ kvs : List (String × Json), sizeM kvs ≤ n →
      sizeM kvs ≤ 3 * (dumpsMembers kvs).length - 2) := by
  intro n
  induction n using Nat.strong_induction_on with
  | _ n ih =>
    refine ⟨?_, ?_, ?_⟩
    · intro v hv
      cases v with
      | null => decide
      | bool b => cases b <;> decide
      | num m =>
        obtain ⟨c, cs, hcons, -, -, -⟩ := dumpsJ_head (Json.num m)
        rw [hcons]
        simp only [sizeJ, List.length_cons]
        omega
      | str s =>
        simp only [sizeJ, dumpsJ, List.length_cons, List.length_append]
        omega
      | arr xs =>
        have hsz : 2 + sizeR xs ≤ n := hv
        have hB := (ih (n - 1) (by omega)).2.1 xs (by omega)
        cases xs with
        | nil => decide
        | cons x xs' =>
          simp only [sizeJ, dumpsJ, dumpsItems, List.length_cons, List.length_append,
            List.length_singleton] at hB ⊢
          omega
      | obj kvs =>
        have hsz : 2 + sizeM kvs ≤ n := hv
        have hC := (ih (n - 1) (by omega)).2.2 kvs (by omega)
        cases kvs with
        | nil => decide
        | cons kv kvs' =>
          obtain ⟨k, v⟩ := kv
          simp only [sizeJ, dumpsJ, dumpsMember, dumpsMembers, List.length_cons,
            List.length_append, List.length_singleton] at hC ⊢
          omega
    · intro xs hxs
      cases xs with
      | nil => simp [sizeR]
      | cons x xs' =>
        have hp := sizeJ_pos x
        have hsz : 1 + sizeJ x + sizeR xs' ≤ n := hxs
        have hA := (ih (n - 1) (by omega)).1 x (by omega)
        have hB := (ih (n - 1) (by omega)).2.1 xs' (by omega)
        simp only [sizeR, dumpsItems, List.length_cons, List.length_append] at hB ⊢
        omega
    · intro kvs hkvs
      cases kvs with
      | nil => simp [sizeM]
      | cons kv kvs' =>
        obtain ⟨k, v⟩ := kv
        have hp := sizeJ_pos v
        have hsz : 1 + sizeJ v + sizeM kvs' ≤ n := hkvs
        have hA := (ih (n - 1) (by omega)).1 v (by omega)
        have hC := (ih (n - 1) (by omega)).2.2 kvs' (by omega)
        simp only [sizeM, dumpsMember, dumpsMembers, List.length_cons,
          List.length_append] at hC ⊢
        omega

theorem sizeJ_le_len (v : Json) : sizeJ v ≤ 3 * (dumpsJ v).length :=
  (size_len_aux (sizeJ v)).1 v (Nat.le_refl _)

/-- json.loads inverts json.dumps on every value whose objects are
duplicate-free — exactly the values that arise from Python dicts. -/
theorem loads_dumps (v : Json) (h : wfJ v = true) : loads (dumps v) = some v := by
  have hsz : sizeJ v ≤ 3 * (dumpsJ v).length + 3 := by
    have := sizeJ_le_len v
    omega
  have h2 : parseValue (3 * (dumpsJ v).length + 3) (dumpsJ v ++ []) = some (v, []) :=
    (parse_dumps_all (3 * (dumpsJ v).length + 3)).1 v [] h hsz trivial
  rw [List.append_nil] at h2
  show (match parseValue (3 * (dumpsJ v).length + 3) (dumpsJ v) with
        | some (w, rest) => if (skipWs rest).isEmpty then some w else none
        | none => none) = some v
  rw [h2]
  rfl

/- ### Python string helpers -/

/-- str.split(sep, 1): the part before the first separator and the part
after it, if the separator occurs. -/
def pySplitFirst (sep : Char) : List Char → Option (List Char × List Char)
  | [] => none
  | c :: rest =>
    if c = sep then some ([], rest)
    else (pySplitFirst sep rest).map (fun p => (c :: p.1, p.2))

/-- str.split(sep): all pieces; splitting the empty string gives one empty
piece, as in Python. -/
def pySplitAll (sep : Char) : List Char → List (List Char)
  | [] => [[]]
  | c :: rest =>
    if c = sep then [] :: pySplitAll sep rest
    else
      match pySplitAll sep rest with
      | p :: ps => (c :: p) :: ps
      | [] => [[c]]

/-- Python str.strip()'s ASCII whitespace (the handlers never receive the
additional Unicode spaces Python would also strip). -/
def isPyWs (c : Char) : Bool :=
  c = ' ' || c = '\t' || c = '\n' || c = '\r' || c.toNat = 11 || c.toNat = 12

/-- str.strip(). -/
def pyStrip (cs : List Char) : List Char :=
  ((cs.dropWhile isPyWs).reverse.dropWhile isPyWs).reverse

/- ### urllib.parse.unquote with the default errors="replace" -/

/-- A scanned token of a percent-encoded string: a literal character or a
decoded byte. -/
inductive QTok where
  | ch (c : Char)
  | byt (b : Nat)

/-- Scan %XX pairs (strict two-hex-digit parsing; int()'s tolerance of
stray whitespace/sign characters inside the two-character slice is not
modelled).  Fuel-indexed for structural recursion; one character is
consumed per step. -/
def qtokenize : Nat → List Char → List QTok
  | 0, _ => []
  | _, [] => []
  | f + 1, c :: rest =>
    if c = '%' then
      match rest with
      | h1 :: h2 :: rest2 =>
        match hexVal? h1, hexVal? h2 with
        | some a, some b => .byt (a * 16 + b) :: qtokenize f rest2
        | _, _ => .ch '%' :: qtokenize f rest
      | _ => .ch '%' :: qtokenize f rest
    else .ch c :: qtokenize f rest

/-- bytes.decode("utf-8", "replace"): one replacement character per
rejected byte-prefix (overlong forms, surrogates and out-of-range values
are rejected as in CPython; the exact maximal-subsequence grouping of the
replacement characters on ill-formed input is simplified to one
replacement per leading byte). -/
def utf8dec : Nat → List Nat → List Char
  | 0, _ => []
  | _, [] => []
  | f + 1, b :: bs =>
    if b < 128 then Char.ofNat b :: utf8dec f bs
    else if 194 ≤ b && b ≤ 223 then
      match bs with
      | b2 :: bs2 =>
        if 128 ≤ b2 && b2 ≤ 191 then
          Char.ofNat ((b - 192) * 64 + (b2 - 128)) :: utf8dec f bs2
        else uRep :: utf8dec f bs
      | [] => [uRep]
    else if 224 ≤ b && b ≤ 239 then
      match bs with
      | b2 :: b3 :: bs3 =>
        if (if b = 224 then 160 ≤ b2 && b2 ≤ 191
            else if b = 237 then 128 ≤ b2 && b2 ≤ 159
            else 128 ≤ b2 && b2 ≤ 191) && (128 ≤ b3 && b3 ≤ 191) then
          Char.ofNat ((b - 224) * 4096 + (b2 - 128) * 64 + (b3 - 128)) :: utf8dec f bs3
        else uRep :: utf8dec f bs
      | _ => uRep :: utf8dec f bs
    else if 240 ≤ b && b ≤ 244 then
      match bs with
      | b2 :: b3 :: b4 :: bs4 =>
        if (if b = 240 then 144 ≤ b2 && b2 ≤ 191
            else if b = 244 then 128 ≤ b2 && b2 ≤ 143
            else 128 ≤ b2 && b2 ≤ 191) && (128 ≤ b3 && b3 ≤ 191) && (128 ≤ b4 && b4 ≤ 191) then
          Char.ofNat ((b - 240) * 262144 + (b2 - 128) * 4096 + (b3 - 128) * 64 + (b4 - 128))
            :: utf8dec f bs4
        else uRep :: utf8dec f bs
      | _ => uRep :: utf8dec f bs
    else uRep :: utf8dec f bs

/-- Reassemble tokens: maximal byte runs are decoded as UTF-8 (with
replacement), literal characters pass through. -/
def detok : List QTok → List Nat → List Char
  | [], acc => utf8dec (acc.length + 1) acc
  | .byt b :: ts, acc => detok ts (acc ++ [b])
  | .ch c :: ts, acc => utf8dec (acc.length + 1) acc ++ (c :: detok ts [])

/-- urllib.parse.unquote(s, errors="replace"). -/
def unquoteL (cs : List Char) : List Char := detok (qtokenize (cs.length + 1) cs) []

/-- The '+'-to-space step of parse_qsl followed by unquote. -/
def unquotePlus (cs : List Char) : List Char :=
  unquoteL (cs.map (fun c => if c = '+' then ' ' else c))

/- ### urllib.parse.parse_qs with default arguments -/

/-- One name=value piece of parse_qsl: empty pieces, pieces without '='
and pieces with an empty value are dropped (keep_blank_values=False,
strict_parsing=False). -/
def parsePair (piece : List Char) : Option (String × String) :=
  if piece.isEmpty then none
  else
    match pySplitFirst '=' piece with
    | none => none
    | some (n, v) =>
      if v.isEmpty then none
      else some (String.mk (unquotePlus n), String.mk (unquotePlus v))

/-- parse_qsl(q) with default arguments (separator '&'). -/
def parse_qsl (q : List Char) : List (String × String) :=
  (pySplitAll '&' q).filterMap parsePair

/-- The dict-of-lists accumulation of parse_qs: append to an existing
key's list, else add the key. -/
def qsInsert (d : List (String × List String)) (k : String) (v : String) :
    List (String × List String) :=
  match d with
  | [] => [(k, [v])]
  | (k0, vs) :: rest =>
    if k0 = k then (k0, vs ++ [v]) :: rest else (k0, vs) :: qsInsert rest k v

/-- urllib.parse.parse_qs with default arguments. -/
def parse_qs (q : String) : List (String × List String) :=
  (parse_qsl q.data).foldl (fun d kv => qsInsert d kv.1 kv.2) []

/- ### urllib.parse.urlparse, restricted to the query component -/

/-- RFC 3986 scheme characters, as in urllib's scheme_chars. -/
def schemeChar (c : Char) : Bool :=
  c.isAlpha || c.isDigit || c = '+' || c = '-' || c = '.'

/-- The scheme split of urlsplit: strip a leading 'scheme:' when the text
before the first colon is a nonempty run of scheme characters starting
with an ASCII letter. -/
def splitScheme (cs : List Char) : List Char :=
  match pySplitFirst ':' cs with
  | none => cs
  | some (before, after) =>
    match before with
    | [] => cs
    | c0 :: _ => if c0.isAlpha && before.all schemeChar then after else cs

/-- urlsplit's "Invalid IPv6 URL" condition: a bracket of one kind without
its partner in the netloc. -/
def bracketBad (netloc : List Char) : Bool :=
  (netloc.contains '[' && !netloc.contains ']')
    || (netloc.contains ']' && !netloc.contains '[')

/-- A character that ends the netloc. -/
def notNetlocDelim (c : Char) : Bool := !(c = '/' || c = '?' || c = '#')

/-- The query component of urlparse(u), or an error where urlsplit raises
ValueError.  Models CPython 3.8-3.10 urlsplit: the unsafe bytes
tab/CR/LF are removed, a scheme is split off, a //netloc is split off
(raising on unbalanced brackets; the bracketed-host content validation
added in 3.11+ is not modelled), the fragment is cut at the first '#',
and the query is what follows the first '?' of the remainder. -/
def urlQuery (u : String) : Except Unit String :=
  let cs := u.data.filter (fun c => !(c = '\t' || c = '\r' || c = '\n'))
  let cs1 := splitScheme cs
  match (if cs1.take 2 = ['/', '/'] then
          (if bracketBad ((cs1.drop 2).takeWhile notNetlocDelim) then Except.error ()
           else Except.ok ((cs1.drop 2).dropWhile notNetlocDelim))
         else Except.ok cs1 : Except Unit (List Char)) with
  | .error _ => .error ()
  | .ok rem =>
    let preFrag := rem.takeWhile (fun c => !(c = '#'))
    match pySplitFirst '?' preFrag with
    | some (_, after) => .ok (String.mk after)
    | none => .ok ""

example : urlQuery "https://x.test/?utm_source=ig&fbclid=abc123"
    = .ok "utm_source=ig&fbclid=abc123" := by rfl

example : urlQuery "http://[" = .error () := by rfl

example : parse_qs "a=1&a=2&b=%C3%A9+z&c=&d&e=ok"
    = [("a", ["1", "2"]), ("b", ["é z"]), ("e", ["ok"])] := by rfl

/- ### datetime -/

/-- A civil timestamp, the component view a datetime object holds. -/
structure CivilTime where
  year : Nat
  month : Nat
  day : Nat
  hour : Nat
  minute : Nat
  second : Nat
  usec : Nat
  deriving DecidableEq

/-- A datetime object: civil components plus an optional UTC offset in
minutes.  tzmin = none is a timezone-naive datetime. -/
structure PyDatetime where
  civil : CivilTime
  tzmin : Option Int
  deriving DecidableEq

/-- datetime.now(): the ambient wall clock as a timezone-NAIVE datetime —
no tzinfo argument is passed at the call sites in app.py. -/
def datetime_now (clock : CivilTime) : PyDatetime := ⟨clock, none⟩

/-- Zero-padded decimal. -/
def padNum (w n : Nat) : List Char :=
  List.replicate (w - (natChars n).length) '0' ++ natChars n

/-- datetime.isoformat(): date and time, a microsecond part only when
nonzero, and a UTC offset only for aware datetimes. -/
def isoformat (d : PyDatetime) : String :=
  String.mk
    (padNum 4 d.civil.year ++ ('-' :: padNum 2 d.civil.month) ++ ('-' :: padNum 2 d.civil.day)
      ++ ('T' :: padNum 2 d.civil.hour) ++ (':' :: padNum 2 d.civil.minute)
      ++ (':' :: padNum 2 d.civil.second)
      ++ (if d.civil.usec = 0 then [] else '.' :: padNum 6 d.civil.usec)
      ++ (match d.tzmin with
          | none => []
          | some off =>
            (if off < 0 then '-' else '+')
              :: (padNum 2 (off.natAbs / 60) ++ (':' :: padNum 2 (off.natAbs % 60)))))

example : isoformat ⟨⟨2024, 5, 6, 7, 8, 9, 0⟩, none⟩ = "2024-05-06T07:08:09" := by rfl

example : isoformat ⟨⟨2024, 5, 6, 7, 8, 9, 250000⟩, some 120⟩
    = "2024-05-06T07:08:09.250000+02:00" := by rfl

/-- Days since 1970-01-01 of a civil date (the standard civil-from-days
inverse used by every datetime implementation). -/
def daysFromCivil (y : Int) (m d : Nat) : Int :=
  let y2 : Int := if m ≤ 2 then y - 1 else y
  let era : Int := (if 0 ≤ y2 then y2 else y2 - 399) / 400
  let yoe : Int := y2 - era * 400
  let mp : Nat := (m + 9) % 12
  let doy : Int := (153 * mp + 2) / 5 + (d : Int) - 1
  let doe : Int := yoe * 365 + yoe / 4 - yoe / 100 + doy
  era * 146097 + doe - 719468

/-- A civil timestamp as microseconds since the epoch: what datetime
subtraction compares. -/
def civilUsec (c : CivilTime) : Int :=
  (daysFromCivil c.year c.month c.day * 86400
      + c.hour * 3600 + c.minute * 60 + c.second) * 1000000 + c.usec

example : civilUsec ⟨1970, 1, 2, 0, 0, 1, 5⟩ = 86401000005 := by rfl

/- ### The create-session handler (app.py, create_session) -/

/-- Whether a list of characters starts with the given pattern. -/
def listStartsWith : List Char → List Char → Bool
  | [], _ => true
  | _ :: _, [] => false
  | p :: ps, c :: cs => p = c && listStartsWith ps cs

/-- Substring test, as Python's 'in' on strings. -/
def listInfix (p s : List Char) : Bool :=
  match s with
  | [] => p.isEmpty
  | _ :: rest => listStartsWith p s || listInfix p rest

/-- Python's 'k in x': key lookup on dicts, substring test on strings,
element equality on lists; TypeError (error) on the non-iterable values
None, booleans and numbers. -/
def pyContains (k : String) : Json → Except Unit Bool
  | .obj kvs => .ok (hasKeyJ k kvs)
  | .str s => .ok (listInfix k.data s.data)
  | .arr xs => .ok (xs.any (fun j => match j with | .str s => s = k | _ => false))
  | _ => .error ()

/-- The guard of create_session, line 68:
not payload or 'fullUrl' not in payload or 'browserData' not in payload —
ok true means the 400 path is taken, error means the check itself raised
(TypeError on a non-container payload), short-circuiting as in Python. -/
def checkIncomplete (payload : Option Json) : Except Unit Bool :=
  match payload with
  | none => .ok true
  | some j =>
    if jsonTruthy j = false then .ok true
    else
      match pyContains "fullUrl" j with
      | .error _ => .error ()
      | .ok h1 =>
        if h1 = false then .ok true
        else
          match pyContains "browserData" j with
          | .error _ => .error ()
          | .ok h2 => .ok (h2 = false)

/-- Address resolution, line 75: the stripped first comma-separated token
of a truthy X-Forwarded-For header, else the peer address. -/
def ipResolve (forwardedFor : Option String) (remoteAddr : String) : String :=
  match forwardedFor with
  | none => remoteAddr
  | some s =>
    if s = "" then remoteAddr
    else String.mk (pyStrip (s.data.takeWhile (fun c => !(c = ','))))

/-- query_params.get(k, [None])[0] — the first value of the parameter when
parse_qs recorded it. -/
def qsFirst (qp : List (String × List String)) (k : String) : Option String :=
  match lookupKey k qp with
  | some (v :: _) => some v
  | some [] => none
  | none => none

/-- The extracted value as stored: the first query value or None. -/
def utmVal (qp : List (String × List String)) (k : String) : Json :=
  match qsFirst qp k with
  | some v => .str v
  | none => .null

/-- The utm_params dict of lines 82-91, in insertion order. -/
def utm_params (qp : List (String × List String)) : List (String × Json) :=
  [("utm_source", utmVal qp "utm_source"),
   ("utm_medium", utmVal qp "utm_medium"),
   ("utm_campaign", utmVal qp "utm_campaign"),
   ("utm_content", utmVal qp "utm_content"),
   ("utm_term", utmVal qp "utm_term"),
   ("fbclid", utmVal qp "fbclid"),
   ("gclid", utmVal qp "gclid"),
   ("ttclid", utmVal qp "ttclid")]

/-- The cookie_params dict of lines 93-98: fbp copied from the fbpCookie
field, fbc the fbclid query value or-else the fbcCookie field (Python
'or': the second operand whenever the first is falsy). -/
def cookie_params (qp : List (String × List String)) (bd : List (String × Json)) :
    List (String × Json) :=
  [("fbp", pyGet "fbpCookie" bd),
   ("fbc", if jsonTruthy (utmVal qp "fbclid") then utmVal qp "fbclid"
           else pyGet "fbcCookie" bd)]

/-- tracking_data_extracted, line 101: the merge keeps utm_params order and
appends the cookie keys (no key collides). -/
def tracking_data_extracted (qp : List (String × List String))
    (bd : List (String × Json)) : List (String × Json) :=
  utm_params qp ++ cookie_params qp bd

/-- The serverData object of lines 109-112: resolved address and the
isoformat of the (timezone-naive) current instant. -/
def server_data_json (ip : String) (clock : CivilTime) : Json :=
  .obj [("ipAddress", .str ip), ("timestamp", .str (isoformat (datetime_now clock)))]

/-- One stored sessions row: session_id is the key, the three structured
fields are kept as the JSON text produced by json.dumps. -/
structure SessionRow where
  full_url : String
  browser_data : String
  server_data : String
  tracking_data : String

/-- The sessions table. -/
abbrev SessionStore : Type := List (String × SessionRow)

/-- The observable outcomes of POST /api/create-session: 200 with the new
id; 400 for the incomplete-payload guard; 500 for a duplicate-id
IntegrityError; 500 from an exception escaping the handler (TypeError /
AttributeError / ValueError in the parsing code outside the try block). -/
inductive CreateResp where
  | ok (session_id : String)
  | invalidInput
  | duplicateId
  | uncaughtError

/-- create_session (app.py lines 66-144).  The generated uuid, the ambient
clock and the transport-level data are parameters; the store is threaded
explicitly.  The INSERT commits only on success, so every non-ok outcome
leaves the store unchanged. -/
def create_session (payload : Option Json) (forwardedFor : Option String)
    (remoteAddr : String) (sessionId : String) (clock : CivilTime)
    (store : SessionStore) : CreateResp × SessionStore :=
  match checkIncomplete payload with
  | .error _ => (.uncaughtError, store)
  | .ok true => (.invalidInput, store)
  | .ok false =>
    match payload with
    | some (.obj kvs) =>
      let ip := ipResolve forwardedFor remoteAddr
      match pyGet "fullUrl" kvs with
      | .str u =>
        match urlQuery u with
        | .error _ => (.uncaughtError, store)
        | .ok q =>
          let qp := parse_qs q
          match (lookupKey "browserData" kvs).getD (.obj []) with
          | .obj bd =>
            if (lookupKey sessionId store).isSome then (.duplicateId, store)
            else
              (.ok sessionId,
                store ++ [(sessionId,
                  ⟨u, dumps (.obj bd), dumps (server_data_json ip clock),
                    dumps (.obj (tracking_data_extracted qp bd))⟩)])
          | _ => (.uncaughtError, store)
      | _ => (.uncaughtError, store)
    | _ => (.uncaughtError, store)

/- ### The get-session handler (app.py, get_session) -/

/-- The observable outcomes of GET /api/get-session/<id>: 200 with the
deserialized record, 404 when the id is unknown, 500 when a stored field
fails to deserialize. -/
inductive GetResp where
  | ok (fullUrl : String) (browserData serverData trackingData : Json)
  | notFound
  | internalError

/-- get_session (app.py lines 148-183): look the row up, json.loads the
three serialized fields, return the record. -/
def get_session (store : SessionStore) (sid : String) : GetResp :=
  match lookupKey sid store with
  | none => .notFound
  | some row =>
    match loads row.browser_data, loads row.server_data, loads row.tracking_data with
    | some b, some s, some t => .ok row.full_url b s t
    | _, _, _ => .internalError

/- ### The heartbeat handlers (app.py, bot_heartbeat / get_bot_status) -/

/-- A value as bound by the sqlite3 driver: the handlers can reach it with
strings, integers, and booleans (a bool binds as 0/1). -/
inductive SqlV where
  | s (v : String)
  | i (v : Int)
  deriving DecidableEq

/-- The bot_heartbeats table: bot_id is the primary key. -/
abbrev HbStore : Type := List (SqlV × CivilTime)

/-- What sqlite3 can bind bot_id to: lists and dicts raise
InterfaceError.  (None is unreachable: it is falsy and stopped by the 400
guard.) -/
def sqlBind : Json → Option SqlV
  | .str v => some (.s v)
  | .num n => some (.i n)
  | .bool b => some (.i (if b then 1 else 0))
  | _ => none

/-- INSERT OR REPLACE INTO bot_heartbeats: the conflicting row (if any) is
deleted and the new row inserted. -/
def hbUpsert (k : SqlV) (t : CivilTime) (st : HbStore) : HbStore :=
  List.filter (fun p => !(p.1 = k)) st ++ [(k, t)]

/-- The observable outcomes of POST /api/bot-heartbeat: 200 ok; 400 when
bot_id is missing/falsy; 500 when anything raises inside the handler's
try block (absent or invalid JSON body, a non-dict body, an unbindable
bot_id). -/
inductive HbResp where
  | ok
  | invalidInput
  | internalError
  deriving DecidableEq

/-- bot_heartbeat (app.py lines 187-208).  body = none models
request.get_json() raising (no/invalid JSON), which the surrounding try
converts to the 500 path; a JSON body that is not an object makes
data.get raise AttributeError, caught the same way. -/
def bot_heartbeat (body : Option Json) (clock : CivilTime) (st : HbStore) :
    HbResp × HbStore :=
  match body with
  | some (.obj kvs) =>
    if jsonTruthy (pyGet "bot_id" kvs) then
      match sqlBind (pyGet "bot_id" kvs) with
      | some k => (.ok, hbUpsert k clock st)
      | none => (.internalError, st)
    else (.invalidInput, st)
  | _ => (.internalError, st)

/-- The 200 body of GET /api/bot-status/<id>: the active flag, the stored
timestamp (isoformat) when one exists, the not-registered message when
none does. -/
structure BotStatusResp where
  active : Bool
  last_heartbeat : Option String
  message : Option String
  deriving DecidableEq

/-- The freshness window of get_bot_status, line 227:
timedelta(seconds=60), a hardcoded constant in this revision. -/
def freshnessWindowSec : Nat := 60

/-- get_bot_status (app.py lines 212-233): look the bot up; absent rows
are a normal 200 with active=False; present rows compare
now - last_heartbeat < timedelta(seconds=60) strictly. -/
def get_bot_status (st : HbStore) (botId : String) (clock : CivilTime) : BotStatusResp :=
  match lookupKey (SqlV.s botId) st with
  | none => ⟨false, none, some "Bot não registrado ou inativo."⟩
  | some t =>
    ⟨decide (civilUsec clock - civilUsec t < (freshnessWindowSec : Int) * 1000000),
      some (isoformat ⟨t, none⟩), none⟩

/- ### Shared facts about the handler pipeline -/

theorem lookupKey_append_none {α β : Type} [DecidableEq α] (k : α) :
    ∀ (l1 l2 : List (α × β)), lookupKey k l1 = none →
      lookupKey k (l1 ++ l2) = lookupKey k l2
  | [], _, _ => rfl
  | (k0, v) :: rest, l2, h => by
    by_cases hk : k0 = k
    · simp [lookupKey, hk] at h
    · simp only [lookupKey, if_neg hk] at h
      show lookupKey k ((k0, v) :: (rest ++ l2)) = _
      simp only [lookupKey, if_neg hk]
      exact lookupKey_append_none k rest l2 h

theorem wfObj_pyGet : ∀ (bd : List (String × Json)), wfObj bd = true →
    ∀ k, wfJ (pyGet k bd) = true
  | [], _, _ => rfl
  | (k0, v) :: rest, h, k => by
    simp only [wfObj, Bool.and_eq_true] at h
    by_cases hk : k0 = k
    · simp only [pyGet, lookupKey, if_pos hk, Option.getD]
      exact h.1
    · simp only [pyGet, lookupKey, if_neg hk]
      exact wfObj_pyGet rest h.2 k

theorem wf_utmVal (qp : List (String × List String)) (k : String) :
    wfJ (utmVal qp k) = true := by
  unfold utmVal
  cases qsFirst qp k <;> rfl

theorem wf_server (ip : String) (clock : CivilTime) :
    wfJ (server_data_json ip clock) = true := by rfl

theorem wf_tracking (qp : List (String × List String)) (bd : List (String × Json))
    (h : wfJ (.obj bd) = true) : wfJ (.obj (tracking_data_extracted qp bd)) = true := by
  have hobj : wfObj bd = true := by
    simp only [wfJ, Bool.and_eq_true] at h
    exact h.2
  have hget : ∀ k, wfJ (pyGet k bd) = true := wfObj_pyGet bd hobj
  have hutm : ∀ k, wfJ (utmVal qp k) = true := wf_utmVal qp
  simp only [wfJ, Bool.and_eq_true]
  constructor
  · show nodupKeysB ["utm_source", "utm_medium", "utm_campaign", "utm_content",
      "utm_term", "fbclid", "gclid", "ttclid", "fbp", "fbc"] = true
    decide
  · show wfObj (tracking_data_extracted qp bd) = true
    simp only [tracking_data_extracted, utm_params, cookie_params, List.cons_append,
      List.nil_append, wfObj, Bool.and_eq_true]
    refine ⟨hutm _, hutm _, hutm _, hutm _, hutm _, hutm _, hutm _, hutm _, hget _, ?_⟩
    constructor
    · split
      · exact hutm _
      · exact hget _
    · trivial

/-- The successful run of create_session: the generated row, spelled out. -/
theorem create_ok_shape
    (kvs : List (String × Json)) (u : String) (bd : List (String × Json)) (q : String)
    (ff : Option String) (remote sid : String) (clock : CivilTime) (store : SessionStore)
    (hurl : lookupKey "fullUrl" kvs = some (.str u))
    (hbd : lookupKey "browserData" kvs = some (.obj bd))
    (hq : urlQuery u = .ok q)
    (hfresh : lookupKey sid store = none) :
    create_session (some (.obj kvs)) ff remote sid clock store
      = (.ok sid, store ++ [(sid,
          ⟨u, dumps (.obj bd),
            dumps (server_data_json (ipResolve ff remote) clock),
            dumps (.obj (tracking_data_extracted (parse_qs q) bd))⟩)]) := by
  have hne : kvs ≠ [] := by
    intro h
    subst h
    simp [lookupKey] at hurl
  have htr : jsonTruthy (.obj kvs) = true := by
    cases kvs with
    | nil => exact absurd rfl hne
    | cons a l => rfl
  have hchk : checkIncomplete (some (.obj kvs)) = .ok false := by
    simp [checkIncomplete, htr, pyContains, hasKeyJ, hurl, hbd]
  simp [create_session, hchk, pyGet, hurl, hbd, hq, hfresh]

/-- C1: for every valid input pair accepted by create, reading the returned
identifier yields the fullUrl verbatim and a browserData deep-equal to the
input: the json.dumps text written by create deserializes through
json.loads back to the identical value. -/
theorem create_then_read
    (kvs : List (String × Json)) (u : String) (bd : List (String × Json)) (q : String)
    (ff : Option String) (remote sid : String) (clock : CivilTime) (store : SessionStore)
    (hurl : lookupKey "fullUrl" kvs = some (.str u))
    (hbd : lookupKey "browserData" kvs = some (.obj bd))
    (hwf : wfJ (.obj bd) = true)
    (hq : urlQuery u = .ok q)
    (hfresh : lookupKey sid store = none) :
    ∃ store' sv tr,
      create_session (some (.obj kvs)) ff remote sid clock store = (.ok sid, store')
        ∧ get_session store' sid = .ok u (.obj bd) sv tr := by
  refine ⟨store ++ [(sid,
      ⟨u, dumps (.obj bd),
        dumps (server_data_json (ipResolve ff remote) clock),
        dumps (.obj (tracking_data_extracted (parse_qs q) bd))⟩)],
    server_data_json (ipResolve ff remote) clock,
    .obj (tracking_data_extracted (parse_qs q) bd),
    create_ok_shape kvs u bd q ff remote sid clock store hurl hbd hq hfresh, ?_⟩
  have hlook : lookupKey sid (store ++ [(sid, (⟨u, dumps (.obj bd),
        dumps (server_data_json (ipResolve ff remote) clock),
        dumps (.obj (tracking_data_extracted (parse_qs q) bd))⟩ : SessionRow))])
      = some ⟨u, dumps (.obj bd), dumps (server_data_json (ipResolve ff remote) clock),
        dumps (.obj (tracking_data_extracted (parse_qs q) bd))⟩ := by
    rw [lookupKey_append_none sid store _ hfresh]
    simp [lookupKey]
  simp only [get_session, hlook]
  rw [loads_dumps _ hwf, loads_dumps _ (wf_server _ _),
    loads_dumps _ (wf_tracking (parse_qs q) bd hwf)]

set_option maxRecDepth 8000 in
/-- Witness for C1 at a concrete request. -/
theorem create_then_read_witness :
    ∃ store' sv tr,
      create_session
          (some (.obj [("fullUrl", .str "https://x.test/?utm_source=ig&fbclid=abc123"),
                       ("browserData", .obj [("fbpCookie", .str "fb1")])]))
          (some "1.2.3.4, 5.6.7.8") "9.9.9.9" "sid-1" ⟨2024, 5, 6, 7, 8, 9, 0⟩ []
        = (.ok "sid-1", store')
      ∧ get_session store' "sid-1"
        = .ok "https://x.test/?utm_source=ig&fbclid=abc123"
            (.obj [("fbpCookie", .str "fb1")]) sv tr :=
  create_then_read _ _ _ "utm_source=ig&fbclid=abc123" _ _ _ _ _
    (by rfl) (by rfl) (by rfl) (by rfl) (by rfl)

theorem create_obj_invalid_of_missing
    (kvs : List (String × Json)) (ff : Option String) (remote sid : String)
    (clock : CivilTime) (store : SessionStore)
    (h : ¬(hasKeyJ "fullUrl" kvs = true ∧ hasKeyJ "browserData" kvs = true)) :
    create_session (some (.obj kvs)) ff remote sid clock store = (.invalidInput, store) := by
  have hchk : checkIncomplete (some (.obj kvs)) = .ok true := by
    cases kvs with
    | nil => rfl
    | cons a l =>
      simp only [checkIncomplete, jsonTruthy, List.isEmpty_cons, Bool.not_false,
        Bool.false_eq_true, if_false, pyContains]
      by_cases h1 : hasKeyJ "fullUrl" (a :: l) = true
      · have h2 : hasKeyJ "browserData" (a :: l) = false := by
          cases hb : hasKeyJ "browserData" (a :: l) with
          | false => rfl
          | true => exact absurd ⟨h1, hb⟩ h
        rw [h1, h2]
        simp
      · have h1f : hasKeyJ "fullUrl" (a :: l) = false := by
          cases hb : hasKeyJ "fullUrl" (a :: l) with
          | false => rfl
          | true => exact absurd hb h1
        rw [h1f]
        simp
  simp [create_session, hchk]

theorem create_obj_not_invalid_of_present
    (kvs : List (String × Json)) (ff : Option String) (remote sid : String)
    (clock : CivilTime) (store : SessionStore)
    (h1 : hasKeyJ "fullUrl" kvs = true) (h2 : hasKeyJ "browserData" kvs = true) :
    (create_session (some (.obj kvs)) ff remote sid clock store).1 ≠ .invalidInput := by
  have hne : kvs ≠ [] := by
    intro h
    subst h
    simp [hasKeyJ, lookupKey] at h1
  have htr : jsonTruthy (.obj kvs) = true := by
    cases kvs with
    | nil => exact absurd rfl hne
    | cons a l => rfl
  have hchk : checkIncomplete (some (.obj kvs)) = .ok false := by
    simp [checkIncomplete, htr, pyContains, h1, h2]
  simp only [create_session, hchk]
  split
  · split
    · simp
    · split
      · split <;> simp
      · simp
  · simp

/-- C2: a POST body parsed as a JSON object is rejected with InvalidInput
exactly when one of the keys fullUrl, browserData is missing; an absent or
null body is likewise rejected; and no record is written on that path. -/
theorem create_invalid_input_iff
    (kvs : List (String × Json)) (ff : Option String) (remote sid : String)
    (clock : CivilTime) (store : SessionStore) :
    ((create_session (some (.obj kvs)) ff remote sid clock store).1 = .invalidInput
        ↔ ¬(hasKeyJ "fullUrl" kvs = true ∧ hasKeyJ "browserData" kvs = true))
      ∧ create_session none ff remote sid clock store = (.invalidInput, store)
      ∧ ((create_session (some (.obj kvs)) ff remote sid clock store).1 = .invalidInput →
          (create_session (some (.obj kvs)) ff remote sid clock store).2 = store) := by
  refine ⟨⟨?_, ?_⟩, by simp [create_session, checkIncomplete], ?_⟩
  · intro hres
    intro hkeys
    exact create_obj_not_invalid_of_present kvs ff remote sid clock store
      hkeys.1 hkeys.2 hres
  · intro hmiss
    rw [create_obj_invalid_of_missing kvs ff remote sid clock store hmiss]
  · intro hres
    by_cases hkeys : hasKeyJ "fullUrl" kvs = true ∧ hasKeyJ "browserData" kvs = true
    · exact absurd hres
        (create_obj_not_invalid_of_present kvs ff remote sid clock store hkeys.1 hkeys.2)
    · rw [create_obj_invalid_of_missing kvs ff remote sid clock store hkeys]

/-- C9: when the generated session id already exists in the store, the
insert is refused: the response is the duplicate-id server error (the
IntegrityError path, HTTP 500 with error "ID duplicado"), the store is
returned unchanged, and no second attempt with a fresh id is made — the
response carries no session id at all. -/
theorem create_duplicate_id
    (kvs : List (String × Json)) (u : String) (bd : List (String × Json)) (q : String)
    (ff : Option String) (remote sid : String) (clock : CivilTime) (store : SessionStore)
    (hurl : lookupKey "fullUrl" kvs = some (.str u))
    (hbd : lookupKey "browserData" kvs = some (.obj bd))
    (hq : urlQuery u = .ok q)
    (hdup : (lookupKey sid store).isSome = true) :
    create_session (some (.obj kvs)) ff remote sid clock store = (.duplicateId, store) := by
  have hne : kvs ≠ [] := by
    intro h
    subst h
    simp [lookupKey] at hurl
  have htr : jsonTruthy (.obj kvs) = true := by
    cases kvs with
    | nil => exact absurd rfl hne
    | cons a l => rfl
  have hchk : checkIncomplete (some (.obj kvs)) = .ok false := by
    simp [checkIncomplete, htr, pyContains, hasKeyJ, hurl, hbd]
  simp [create_session, hchk, pyGet, hurl, hbd, hq, hdup]

/-- Witness for C9 at a concrete request against a store already
holding the id. -/
theorem create_duplicate_id_witness :
    create_session
        (some (.obj [("fullUrl", .str "https://x.test/a"), ("browserData", .obj [])]))
        none "9.9.9.9" "sid-1" ⟨2024, 5, 6, 7, 8, 9, 0⟩
        [("sid-1", ⟨"old", "{}", "{}", "{}"⟩)]
      = (.duplicateId, [("sid-1", ⟨"old", "{}", "{}", "{}"⟩)]) :=
  create_duplicate_id _ _ _ "" _ _ _ _ _ (by rfl) (by rfl) (by rfl) (by rfl)

/- ### Heartbeat store: INSERT OR REPLACE keyed on bot_id -/

def countKey (k : SqlV) (st : HbStore) : Nat :=
  (st.filter (fun p => p.1 = k)).length

theorem filter_ne_filter_eq (k : SqlV) :
    ∀ st : HbStore, (st.filter (fun p => !(p.1 = k))).filter (fun p => decide (p.1 = k)) = []
  | [] => rfl
  | (k0, t0) :: rest => by
    by_cases hk : k0 = k
    · simpa [List.filter_cons, hk] using filter_ne_filter_eq k rest
    · simpa [List.filter_cons, hk] using filter_ne_filter_eq k rest

theorem countKey_upsert_self (k : SqlV) (t : CivilTime) (st : HbStore) :
    countKey k (hbUpsert k t st) = 1 := by
  simp only [countKey, hbUpsert, List.filter_append]
  rw [filter_ne_filter_eq k st]
  simp

theorem lookup_upsert_self (k : SqlV) (t : CivilTime) :
    ∀ st : HbStore, lookupKey k (hbUpsert k t st) = some t := by
  intro st
  induction st with
  | nil => simp [hbUpsert, lookupKey]
  | cons p rest ih =>
    obtain ⟨k0, t0⟩ := p
    by_cases hk : k0 = k
    · simpa [hbUpsert, List.filter_cons, hk] using ih
    · simpa [hbUpsert, List.filter_cons, lookupKey, hk] using ih

theorem filter_ne_idem (k : SqlV) (st : HbStore) :
    (st.filter (fun p => !(p.1 = k))).filter (fun p => !(p.1 = k))
      = st.filter (fun p => !(p.1 = k)) := by
  induction st with
  | nil => rfl
  | cons p rest ih =>
    obtain ⟨k0, t0⟩ := p
    by_cases hk : k0 = k
    · simpa [List.filter_cons, hk] using ih
    · simpa [List.filter_cons, hk] using ih

theorem hbUpsert_idem (k : SqlV) (t : CivilTime) (st : HbStore) :
    hbUpsert k t (hbUpsert k t st) = hbUpsert k t st := by
  simp only [hbUpsert, List.filter_append]
  rw [filter_ne_idem k st]
  simp

theorem countKey_upsert_le (k k2 : SqlV) (t : CivilTime) (st : HbStore)
    (h : countKey k st ≤ 1) : countKey k (hbUpsert k2 t st) ≤ 1 := by
  by_cases hk : k2 = k
  · subst hk
    rw [countKey_upsert_self]
  · simp only [countKey, hbUpsert, List.filter_append, List.length_append]
    have h2 : ([(k2, t)].filter (fun p => decide (p.1 = k))).length = 0 := by
      simp [List.filter, hk]
    rw [h2, Nat.add_zero]
    calc (List.length (List.filter (fun p => decide (p.1 = k))
            (List.filter (fun p => !decide (p.1 = k2)) st)))
        ≤ (st.filter (fun p => decide (p.1 = k))).length := by
          exact List.Sublist.length_le (List.Sublist.filter _ (List.filter_sublist st))
      _ ≤ 1 := h

theorem countKey_foldl_le (k : SqlV) :
    ∀ (calls : List (SqlV × CivilTime)) (st : HbStore), countKey k st ≤ 1 →
      countKey k (calls.foldl (fun acc c => hbUpsert c.1 c.2 acc) st) ≤ 1
  | [], st, h => h
  | c :: rest, st, h =>
    countKey_foldl_le k rest (hbUpsert c.1 c.2 st) (countKey_upsert_le k c.1 c.2 st h)

/-- C5: the heartbeat upsert keyed on bot_id keeps at most one row per
bot across any sequence of heartbeats; two heartbeats of the same bot
leave a single row holding the later timestamp; and replaying the same
heartbeat is idempotent on the store. -/
theorem heartbeat_single_row :
    (∀ (calls : List (SqlV × CivilTime)) (k : SqlV),
        countKey k (calls.foldl (fun acc c => hbUpsert c.1 c.2 acc) []) ≤ 1)
      ∧ (∀ (k : SqlV) (t1 t2 : CivilTime) (st : HbStore),
          countKey k (hbUpsert k t2 (hbUpsert k t1 st)) = 1
            ∧ lookupKey k (hbUpsert k t2 (hbUpsert k t1 st)) = some t2)
      ∧ (∀ (k : SqlV) (t : CivilTime) (st : HbStore),
          hbUpsert k t (hbUpsert k t st) = hbUpsert k t st) :=
  ⟨fun calls k => countKey_foldl_le k calls [] (by simp [countKey]),
   fun k t1 t2 st => ⟨countKey_upsert_self k t2 _, lookup_upsert_self k t2 _⟩,
   hbUpsert_idem⟩

/-- C6: GET /bot_status/(bot_id) looks the id up in bot_heartbeats; when
absent it reports active False with the not-registered message and no
timestamp, when present it reports active exactly when the stored
heartbeat is strictly inside the freshness window of now, together with
the stored timestamp in isoformat. -/
theorem bot_status_report (st : HbStore) (id : String) (clock : CivilTime) :
    (lookupKey (SqlV.s id) st = none →
        get_bot_status st id clock
          = ⟨false, none, some "Bot não registrado ou inativo."⟩)
      ∧ (∀ t, lookupKey (SqlV.s id) st = some t →
          ((get_bot_status st id clock).active = true
              ↔ civilUsec clock - civilUsec t < (freshnessWindowSec : Int) * 1000000)
            ∧ (get_bot_status st id clock).last_heartbeat
                = some (isoformat ⟨t, none⟩)
            ∧ (get_bot_status st id clock).message = none) := by
  constructor
  · intro h
    simp [get_bot_status, h]
  · intro t h
    simp [get_bot_status, h]

/-- Witness for C6: one bot inside the window, one lookup miss. -/
theorem bot_status_report_witness :
    get_bot_status [] "b" ⟨2024, 1, 1, 0, 0, 30, 0⟩
        = ⟨false, none, some "Bot não registrado ou inativo."⟩
      ∧ ((get_bot_status [(SqlV.s "b", ⟨2024, 1, 1, 0, 0, 0, 0⟩)] "b"
            ⟨2024, 1, 1, 0, 0, 30, 0⟩).active = true
          ↔ civilUsec ⟨2024, 1, 1, 0, 0, 30, 0⟩ - civilUsec ⟨2024, 1, 1, 0, 0, 0, 0⟩
              < (freshnessWindowSec : Int) * 1000000) :=
  ⟨(bot_status_report [] "b" ⟨2024, 1, 1, 0, 0, 30, 0⟩).1 (by rfl),
   ((bot_status_report [(SqlV.s "b", ⟨2024, 1, 1, 0, 0, 0, 0⟩)] "b"
      ⟨2024, 1, 1, 0, 0, 30, 0⟩).2 ⟨2024, 1, 1, 0, 0, 0, 0⟩ (by rfl)).1⟩

/-- C7 counterexample: a heartbeat 100 seconds old — well inside the
claimed 360-second default — is reported inactive, because the code
hardcodes timedelta(seconds=60) and reads no configuration. -/
theorem freshness_not_360s :
    (get_bot_status [(SqlV.s "b", ⟨2024, 1, 1, 0, 0, 0, 0⟩)] "b"
        ⟨2024, 1, 1, 0, 1, 40, 0⟩).active = false
      ∧ civilUsec ⟨2024, 1, 1, 0, 1, 40, 0⟩ - civilUsec ⟨2024, 1, 1, 0, 0, 0, 0⟩
          = 100 * 1000000
      ∧ (100 : Int) * 1000000 < 360 * 1000000 :=
  ⟨by rfl, by rfl, by decide⟩

/-- C7 amended: the freshness window is the fixed constant 60 seconds —
not configurable, and not 360 — and a bot is active exactly when its
last heartbeat is strictly less than 60 seconds before now. -/
theorem freshness_window_is_60s (st : HbStore) (id : String) (clock t : CivilTime)
    (h : lookupKey (SqlV.s id) st = some t) :
    freshnessWindowSec = 60
      ∧ ((get_bot_status st id clock).active = true
          ↔ civilUsec clock - civilUsec t < 60 * 1000000) := by
  refine ⟨rfl, ?_⟩
  simp [get_bot_status, h, freshnessWindowSec]

/-- Witness for the amended C7. -/
theorem freshness_window_is_60s_witness :
    freshnessWindowSec = 60
      ∧ ((get_bot_status [(SqlV.s "b", ⟨2024, 1, 1, 0, 0, 0, 0⟩)] "b"
            ⟨2024, 1, 1, 0, 0, 59, 0⟩).active = true
          ↔ civilUsec ⟨2024, 1, 1, 0, 0, 59, 0⟩ - civilUsec ⟨2024, 1, 1, 0, 0, 0, 0⟩
              < 60 * 1000000) :=
  freshness_window_is_60s [(SqlV.s "b", ⟨2024, 1, 1, 0, 0, 0, 0⟩)] "b"
    ⟨2024, 1, 1, 0, 0, 59, 0⟩ ⟨2024, 1, 1, 0, 0, 0, 0⟩ (by rfl)

/-- C10 counterexample: a body whose bot_id is present but falsy — the
number 0 — is rejected with the 400 path, although the key is neither
missing nor empty; and a body that is not a JSON object lands in the
generic except handler, a 500, not the claimed 400. -/
theorem heartbeat_reject_counterexample :
    bot_heartbeat (some (.obj [("bot_id", .num 0)])) ⟨2024, 1, 1, 0, 0, 0, 0⟩ []
        = (.invalidInput, [])
      ∧ lookupKey "bot_id" [("bot_id", Json.num 0)] = some (.num 0)
      ∧ Json.num 0 ≠ Json.null
      ∧ (∀ s, Json.num 0 ≠ Json.str s)
      ∧ bot_heartbeat (some (.str "not-an-object")) ⟨2024, 1, 1, 0, 0, 0, 0⟩ []
        = (.internalError, []) :=
  ⟨by rfl, by rfl, by simp, fun s => by simp, by rfl⟩

/-- C10 amended: a missing or non-object body takes the except path (a
500, with no write); with an object body the 400 fires exactly when the
bot_id value is Python-falsy — absent, null, empty string, zero, empty
array or object, or false; and whenever the response is not the 200
success, the heartbeat store is unchanged. -/
theorem heartbeat_reject_rules (body : Option Json) (clock : CivilTime) (st : HbStore) :
    (body = none → bot_heartbeat body clock st = (.internalError, st))
      ∧ (∀ j, body = some j → (∀ kvs, j ≠ .obj kvs) →
          bot_heartbeat body clock st = (.internalError, st))
      ∧ (∀ kvs, body = some (.obj kvs) →
          ((bot_heartbeat body clock st).1 = .invalidInput
              ↔ jsonTruthy (pyGet "bot_id" kvs) = false)
            ∧ ((bot_heartbeat body clock st).1 ≠ .ok →
                (bot_heartbeat body clock st).2 = st)) := by
  refine ⟨?_, ?_, ?_⟩
  · intro h
    subst h
    rfl
  · intro j hj hobj
    subst hj
    cases j with
    | obj kvs => exact absurd rfl (hobj kvs)
    | null => rfl
    | bool b => rfl
    | num n => rfl
    | str s => rfl
    | arr xs => rfl
  · intro kvs hb
    subst hb
    constructor
    · simp only [bot_heartbeat]
      cases htr : jsonTruthy (pyGet "bot_id" kvs) with
      | false => simp
      | true =>
        simp only [Bool.true_eq_false, if_false, iff_false]
        cases hsb : sqlBind (pyGet "bot_id" kvs) with
        | none => simp
        | some v => simp
    · intro hok
      simp only [bot_heartbeat] at hok ⊢
      cases htr : jsonTruthy (pyGet "bot_id" kvs) with
      | false => simp [htr]
      | true =>
        simp only [htr, Bool.true_eq_false, if_false] at hok ⊢
        cases hsb : sqlBind (pyGet "bot_id" kvs) with
        | none => simp [hsb]
        | some v =>
          simp [hsb] at hok

/-- Witness for C2 at concrete bodies. -/
theorem create_invalid_input_iff_witness :
    (create_session (some (.obj [("fullUrl", .str "u")])) none "r" "s"
        ⟨2024, 1, 1, 0, 0, 0, 0⟩ []).1 = .invalidInput
      ∧ create_session none none "r" "s" ⟨2024, 1, 1, 0, 0, 0, 0⟩ []
          = (.invalidInput, []) :=
  ⟨(create_invalid_input_iff [("fullUrl", .str "u")] none "r" "s"
      ⟨2024, 1, 1, 0, 0, 0, 0⟩ []).1.mpr (by decide),
   (create_invalid_input_iff [] none "r" "s" ⟨2024, 1, 1, 0, 0, 0, 0⟩ []).2.1⟩

/-- Witness for the amended C10 at concrete bodies. -/
theorem heartbeat_reject_rules_witness :
    bot_heartbeat none ⟨2024, 1, 1, 0, 0, 0, 0⟩ [] = (.internalError, [])
      ∧ (bot_heartbeat (some (.obj [("bot_id", .str "")])) ⟨2024, 1, 1, 0, 0, 0, 0⟩ []).1
          = .invalidInput :=
  ⟨(heartbeat_reject_rules none ⟨2024, 1, 1, 0, 0, 0, 0⟩ []).1 rfl,
   ((heartbeat_reject_rules (some (.obj [("bot_id", .str "")]))
      ⟨2024, 1, 1, 0, 0, 0, 0⟩ []).2.2 [("bot_id", .str "")] rfl).1.mpr (by rfl)⟩

/-- C8 counterexample: the creation timestamp is datetime.now() — a naive
datetime carrying no utcoffset, rendered by isoformat without any offset
suffix — so it has no timezone-aware precision; and a present-but-empty
X-Forwarded-For header falls back to the peer address rather than using
the header's first token. -/
theorem server_data_counterexample :
    ipResolve (some "") "9.9.9.9" = "9.9.9.9"
      ∧ (datetime_now ⟨2024, 5, 6, 7, 8, 9, 0⟩).tzmin = none
      ∧ isoformat (datetime_now ⟨2024, 5, 6, 7, 8, 9, 0⟩) = "2024-05-06T07:08:09"
      ∧ ∃ store' row,
          create_session
              (some (.obj [("fullUrl", .str "https://x.test/a"), ("browserData", .obj [])]))
              (some "") "9.9.9.9" "sid-c8" ⟨2024, 5, 6, 7, 8, 9, 0⟩ []
            = (.ok "sid-c8", store')
          ∧ lookupKey "sid-c8" store' = some row
          ∧ loads row.server_data
              = some (.obj [("ipAddress", .str "9.9.9.9"),
                            ("timestamp", .str "2024-05-06T07:08:09")]) := by
  refine ⟨rfl, rfl, rfl, ?_⟩
  refine ⟨_, _, create_ok_shape
    [("fullUrl", .str "https://x.test/a"), ("browserData", .obj [])]
    "https://x.test/a" [] "" (some "") "9.9.9.9" "sid-c8" ⟨2024, 5, 6, 7, 8, 9, 0⟩ []
    (by rfl) (by rfl) (by rfl) (by rfl), by rfl, ?_⟩
  show loads (dumps (server_data_json (ipResolve (some "") "9.9.9.9")
      ⟨2024, 5, 6, 7, 8, 9, 0⟩)) = _
  rw [loads_dumps _ (wf_server _ _)]
  rfl

/-- C8 amended: serverData records ipAddress as ipResolve — the stripped
first comma token of a present and non-empty forwarded-for header, the
peer address when the header is absent or empty — and timestamp as the
isoformat of a timezone-naive creation instant. -/
theorem server_data_shape
    (kvs : List (String × Json)) (u : String) (bd : List (String × Json)) (q : String)
    (ff : Option String) (remote sid : String) (clock : CivilTime) (store : SessionStore)
    (hurl : lookupKey "fullUrl" kvs = some (.str u))
    (hbd : lookupKey "browserData" kvs = some (.obj bd))
    (hq : urlQuery u = .ok q)
    (hfresh : lookupKey sid store = none) :
    ∃ store' row,
      create_session (some (.obj kvs)) ff remote sid clock store = (.ok sid, store')
        ∧ lookupKey sid store' = some row
        ∧ loads row.server_data
            = some (.obj [("ipAddress", .str (ipResolve ff remote)),
                          ("timestamp", .str (isoformat (datetime_now clock)))])
        ∧ (datetime_now clock).tzmin = none
        ∧ ipResolve none remote = remote
        ∧ ipResolve (some "") remote = remote
        ∧ (∀ s, s ≠ "" →
            ipResolve (some s) remote
              = String.mk (pyStrip (s.data.takeWhile (fun c => !(c = ','))))) := by
  refine ⟨_, ⟨u, dumps (.obj bd), dumps (server_data_json (ipResolve ff remote) clock),
      dumps (.obj (tracking_data_extracted (parse_qs q) bd))⟩,
    create_ok_shape kvs u bd q ff remote sid clock store hurl hbd hq hfresh,
    ?_, ?_, rfl, rfl, rfl, fun s hs => by simp [ipResolve, hs]⟩
  · rw [lookupKey_append_none sid store _ hfresh]
    simp [lookupKey]
  · show loads (dumps (server_data_json (ipResolve ff remote) clock)) = _
    rw [loads_dumps _ (wf_server _ _)]
    rfl

/-- Witness for the amended C8. -/
theorem server_data_shape_witness :
    ∃ store' row,
      create_session
          (some (.obj [("fullUrl", .str "https://x.test/a"), ("browserData", .obj [])]))
          (some "1.2.3.4, 5.6.7.8") "9.9.9.9" "sid-w8" ⟨2024, 5, 6, 7, 8, 9, 0⟩ []
        = (.ok "sid-w8", store')
        ∧ lookupKey "sid-w8" store' = some row
        ∧ loads row.server_data
            = some (.obj [("ipAddress",
                .str (ipResolve (some "1.2.3.4, 5.6.7.8") "9.9.9.9")),
              ("timestamp",
                .str (isoformat (datetime_now ⟨2024, 5, 6, 7, 8, 9, 0⟩)))])
        ∧ (datetime_now ⟨2024, 5, 6, 7, 8, 9, 0⟩).tzmin = none
        ∧ ipResolve none "9.9.9.9" = "9.9.9.9"
        ∧ ipResolve (some "") "9.9.9.9" = "9.9.9.9"
        ∧ (∀ s, s ≠ "" →
            ipResolve (some s) "9.9.9.9"
              = String.mk (pyStrip (s.data.takeWhile (fun c => !(c = ','))))) :=
  server_data_shape
    [("fullUrl", .str "https://x.test/a"), ("browserData", .obj [])]
    "https://x.test/a" [] "" (some "1.2.3.4, 5.6.7.8") "9.9.9.9" "sid-w8"
    ⟨2024, 5, 6, 7, 8, 9, 0⟩ [] (by rfl) (by rfl) (by rfl) (by rfl)

/- ### parse_qs with keep_blank_values=False never stores an empty value -/

theorem utf8dec_ne (f b : Nat) (bs : List Nat) : utf8dec (f + 1) (b :: bs) ≠ [] := by
  simp only [utf8dec]
  repeat' split
  all_goals simp

theorem detok_ne : ∀ (ts : List QTok) (acc : List Nat), (ts ≠ [] ∨ acc ≠ []) →
    detok ts acc ≠ []
  | [], acc, h => by
    have hacc : acc ≠ [] := h.resolve_left (fun h' => h' rfl)
    cases acc with
    | nil => exact absurd rfl hacc
    | cons b bs =>
      show utf8dec ((b :: bs).length + 1) (b :: bs) ≠ []
      exact utf8dec_ne (b :: bs).length b bs
  | .byt b :: ts, acc, _ => by
    show detok ts (acc ++ [b]) ≠ []
    exact detok_ne ts (acc ++ [b]) (Or.inr (by simp))
  | .ch c :: ts, acc, _ => by
    show utf8dec (acc.length + 1) acc ++ (c :: detok ts []) ≠ []
    simp

theorem qtokenize_ne (f : Nat) (c : Char) (cs : List Char) :
    qtokenize (f + 1) (c :: cs) ≠ [] := by
  simp only [qtokenize]
  split
  · split
    · split <;> simp
    · simp
  · simp

theorem unquoteL_ne (cs : List Char) (h : cs ≠ []) : unquoteL cs ≠ [] := by
  cases cs with
  | nil => exact absurd rfl h
  | cons c rest =>
    show detok (qtokenize ((c :: rest).length + 1) (c :: rest)) [] ≠ []
    cases hq : qtokenize ((c :: rest).length + 1) (c :: rest) with
    | nil => exact absurd hq (qtokenize_ne (c :: rest).length c rest)
    | cons t ts => exact detok_ne (t :: ts) [] (Or.inl (by simp))

theorem unquotePlus_ne (cs : List Char) (h : cs ≠ []) : unquotePlus cs ≠ [] := by
  apply unquoteL_ne
  cases cs with
  | nil => exact absurd rfl h
  | cons c rest => simp

theorem parsePair_snd_ne (piece : List Char) (kv : String × String)
    (h : parsePair piece = some kv) : kv.2 ≠ "" := by
  unfold parsePair at h
  by_cases hp : piece.isEmpty
  · simp [hp] at h
  · rw [if_neg (by simpa using hp)] at h
    cases hsp : pySplitFirst '=' piece with
    | none => rw [hsp] at h; exact absurd h (by simp)
    | some nv =>
      obtain ⟨n, v⟩ := nv
      rw [hsp] at h
      change (if v.isEmpty = true then none
        else some ((⟨unquotePlus n⟩ : String), (⟨unquotePlus v⟩ : String))) = some kv at h
      by_cases hv : v.isEmpty
      · simp [hv] at h
      · rw [if_neg (by simpa using hv)] at h
        have hkv : kv = (String.mk (unquotePlus n), String.mk (unquotePlus v)) :=
          (Option.some.injEq _ _ ▸ h).symm
        rw [hkv]
        intro hc
        have hd : unquotePlus v = [] := congrArg String.data hc
        exact unquotePlus_ne v (by simpa using hv) hd

theorem parse_qsl_snd_ne (q : List Char) (kv : String × String)
    (h : kv ∈ parse_qsl q) : kv.2 ≠ "" := by
  unfold parse_qsl at h
  rw [List.mem_filterMap] at h
  obtain ⟨piece, _, hpp⟩ := h
  exact parsePair_snd_ne piece kv hpp

theorem qsInsert_mem_val :
    ∀ (d : List (String × List String)) (k v k2 : String) (vs2 : List String),
      lookupKey k2 (qsInsert d k v) = some vs2 → ∀ x ∈ vs2,
        x = v ∨ ∃ vs, lookupKey k2 d = some vs ∧ x ∈ vs
  | [], k, v, k2, vs2, h, x, hx => by
    simp only [qsInsert, lookupKey] at h
    by_cases hk : k = k2
    · rw [if_pos hk] at h
      have : vs2 = [v] := by simpa using h.symm
      subst this
      left
      simpa using hx
    · rw [if_neg hk] at h
      exact absurd h (by simp)
  | (k0, vs0) :: rest, k, v, k2, vs2, h, x, hx => by
    by_cases hk : k0 = k
    · rw [qsInsert, if_pos hk] at h
      by_cases hk2 : k0 = k2
      · rw [lookupKey, if_pos hk2] at h
        have : vs2 = vs0 ++ [v] := by simpa using h.symm
        subst this
        rcases List.mem_append.mp hx with hx0 | hxv
        · right
          exact ⟨vs0, by rw [lookupKey, if_pos hk2], hx0⟩
        · left
          simpa using hxv
      · rw [lookupKey, if_neg hk2] at h
        right
        refine ⟨vs2, ?_, hx⟩
        rw [lookupKey, if_neg hk2]
        exact h
    · rw [qsInsert, if_neg hk] at h
      by_cases hk2 : k0 = k2
      · rw [lookupKey, if_pos hk2] at h
        right
        refine ⟨vs0, by rw [lookupKey, if_pos hk2], ?_⟩
        have : vs2 = vs0 := by simpa using h.symm
        subst this
        exact hx
      · rw [lookupKey, if_neg hk2] at h
        rcases qsInsert_mem_val rest k v k2 vs2 h x hx with hv | ⟨vs, hvs, hxv⟩
        · exact Or.inl hv
        · right
          refine ⟨vs, ?_, hxv⟩
          rw [lookupKey, if_neg hk2]
          exact hvs

theorem foldl_qsInsert_inv :
    ∀ (l : List (String × String)) (d : List (String × List String)),
      (∀ kv ∈ l, kv.2 ≠ "") →
      (∀ k vs, lookupKey k d = some vs → ∀ x ∈ vs, x ≠ "") →
      ∀ k vs, lookupKey k (l.foldl (fun d kv => qsInsert d kv.1 kv.2) d) = some vs →
        ∀ x ∈ vs, x ≠ ""
  | [], d, _, hd, k, vs, h, x, hx => hd k vs h x hx
  | kv :: l, d, hl, hd, k, vs, h, x, hx => by
    refine foldl_qsInsert_inv l (qsInsert d kv.1 kv.2)
      (fun kv2 h2 => hl kv2 (List.mem_cons_of_mem kv h2)) ?_ k vs h x hx
    intro k2 vs2 h2 x2 hx2
    rcases qsInsert_mem_val d kv.1 kv.2 k2 vs2 h2 x2 hx2 with hv | ⟨vs3, hvs3, hxv⟩
    · rw [hv]
      exact hl kv (List.mem_cons_self kv l)
    · exact hd k2 vs3 hvs3 x2 hxv

theorem qsFirst_ne_empty (q : String) (k v : String)
    (h : qsFirst (parse_qs q) k = some v) : v ≠ "" := by
  unfold qsFirst at h
  cases hl : lookupKey k (parse_qs q) with
  | none => rw [hl] at h; exact absurd h (by simp)
  | some vs =>
    rw [hl] at h
    cases vs with
    | nil => exact absurd h (by simp)
    | cons v0 rest =>
      have hv0 : v = v0 := by simpa using h.symm
      subst hv0
      exact foldl_qsInsert_inv (parse_qsl q.data) []
        (fun kv hkv => parse_qsl_snd_ne q.data kv hkv)
        (fun k2 vs2 h2 => by simp [lookupKey] at h2)
        k (v :: rest) hl v (by simp)

theorem utmVal_cases (qp : List (String × List String)) (k : String) :
    utmVal qp k = .null ∨ ∃ s, utmVal qp k = .str s ∧ qsFirst qp k = some s := by
  cases hq : qsFirst qp k with
  | none => exact Or.inl (by simp [utmVal, hq])
  | some s => exact Or.inr ⟨s, by simp [utmVal, hq], rfl⟩

/-- C4: in the derived trackingData, fbp is the fbpCookie field of
browserData (null when absent), and fbc is the first fbclid query value
when that parameter occurs in the query string — parse_qs never records
a blank value, so a recorded first value is nonempty and wins the
Python or — otherwise the fbcCookie field of browserData (itself null
when absent). -/
theorem cookie_field_rules
    (kvs : List (String × Json)) (u : String) (bd : List (String × Json)) (q : String)
    (ff : Option String) (remote sid : String) (clock : CivilTime) (store : SessionStore)
    (hurl : lookupKey "fullUrl" kvs = some (.str u))
    (hbd : lookupKey "browserData" kvs = some (.obj bd))
    (hwf : wfJ (.obj bd) = true)
    (hq : urlQuery u = .ok q)
    (hfresh : lookupKey sid store = none) :
    ∃ store' row,
      create_session (some (.obj kvs)) ff remote sid clock store = (.ok sid, store')
        ∧ lookupKey sid store' = some row
        ∧ ∃ td, loads row.tracking_data = some (.obj td)
          ∧ lookupKey "fbp" td = some (pyGet "fbpCookie" bd)
          ∧ (lookupKey "fbpCookie" bd = none → lookupKey "fbp" td = some .null)
          ∧ (∀ v, qsFirst (parse_qs q) "fbclid" = some v →
              lookupKey "fbc" td = some (.str v))
          ∧ (qsFirst (parse_qs q) "fbclid" = none →
              lookupKey "fbc" td = some (pyGet "fbcCookie" bd)) := by
  have hbase : lookupKey "fbc" (tracking_data_extracted (parse_qs q) bd)
      = some (if jsonTruthy (utmVal (parse_qs q) "fbclid") = true
          then utmVal (parse_qs q) "fbclid" else pyGet "fbcCookie" bd) := rfl
  refine ⟨_, ⟨u, dumps (.obj bd), dumps (server_data_json (ipResolve ff remote) clock),
      dumps (.obj (tracking_data_extracted (parse_qs q) bd))⟩,
    create_ok_shape kvs u bd q ff remote sid clock store hurl hbd hq hfresh,
    ?_, tracking_data_extracted (parse_qs q) bd, ?_, rfl, ?_, ?_, ?_⟩
  · rw [lookupKey_append_none sid store _ hfresh]
    simp [lookupKey]
  · show loads (dumps (.obj (tracking_data_extracted (parse_qs q) bd))) = _
    rw [loads_dumps _ (wf_tracking (parse_qs q) bd hwf)]
  · intro h
    have hnull : pyGet "fbpCookie" bd = Json.null := by simp [pyGet, h]
    show lookupKey "fbp" (tracking_data_extracted (parse_qs q) bd) = some Json.null
    rw [show lookupKey "fbp" (tracking_data_extracted (parse_qs q) bd)
      = some (pyGet "fbpCookie" bd) from rfl, hnull]
  · intro v hv
    have hvne : v ≠ "" := qsFirst_ne_empty q "fbclid" v hv
    have h1 : utmVal (parse_qs q) "fbclid" = .str v := by simp [utmVal, hv]
    rw [hbase, h1]
    simp [jsonTruthy, hvne]
  · intro hnone
    have h1 : utmVal (parse_qs q) "fbclid" = .null := by simp [utmVal, hnone]
    rw [hbase, h1]
    simp [jsonTruthy]

/-- Witness for C4 at the documented example URL: fbclid wins over a
present fbcCookie, fbp copies fbpCookie. -/
theorem cookie_field_rules_witness :
    ∃ store' row,
      create_session
          (some (.obj [("fullUrl", .str "https://x.test/?utm_source=ig&fbclid=abc123"),
            ("browserData", .obj [("fbpCookie", .str "fb1"), ("fbcCookie", .str "ck")])]))
          none "9.9.9.9" "sid-w4" ⟨2024, 5, 6, 7, 8, 9, 0⟩ []
        = (.ok "sid-w4", store')
        ∧ lookupKey "sid-w4" store' = some row
        ∧ ∃ td, loads row.tracking_data = some (.obj td)
          ∧ lookupKey "fbp" td
              = some (pyGet "fbpCookie"
                  [("fbpCookie", Json.str "fb1"), ("fbcCookie", Json.str "ck")])
          ∧ (lookupKey "fbpCookie"
                [("fbpCookie", Json.str "fb1"), ("fbcCookie", Json.str "ck")] = none →
              lookupKey "fbp" td = some .null)
          ∧ (∀ v, qsFirst (parse_qs "utm_source=ig&fbclid=abc123") "fbclid" = some v →
              lookupKey "fbc" td = some (.str v))
          ∧ (qsFirst (parse_qs "utm_source=ig&fbclid=abc123") "fbclid" = none →
              lookupKey "fbc" td
                = some (pyGet "fbcCookie"
                    [("fbpCookie", Json.str "fb1"), ("fbcCookie", Json.str "ck")])) :=
  cookie_field_rules
    [("fullUrl", .str "https://x.test/?utm_source=ig&fbclid=abc123"),
      ("browserData", .obj [("fbpCookie", .str "fb1"), ("fbcCookie", .str "ck")])]
    "https://x.test/?utm_source=ig&fbclid=abc123"
    [("fbpCookie", .str "fb1"), ("fbcCookie", .str "ck")]
    "utm_source=ig&fbclid=abc123" none "9.9.9.9" "sid-w4" ⟨2024, 5, 6, 7, 8, 9, 0⟩ []
    (by rfl) (by rfl) (by rfl) (by rfl) (by rfl)

/-- C3 counterexample: cookie_params copies the fbpCookie field verbatim,
so a numeric fbpCookie puts the number 7 — neither a string nor a null
marker — under fbp in the stored trackingData. -/
theorem tracking_value_counterexample :
    ∃ store' row,
      create_session
          (some (.obj [("fullUrl", .str "https://x.test/?utm_source=ig"),
            ("browserData", .obj [("fbpCookie", .num 7)])]))
          none "9.9.9.9" "sid-c3" ⟨2024, 5, 6, 7, 8, 9, 0⟩ []
        = (.ok "sid-c3", store')
      ∧ lookupKey "sid-c3" store' = some row
      ∧ ∃ td, loads row.tracking_data = some (.obj td)
        ∧ lookupKey "fbp" td = some (.num 7)
        ∧ (∀ s, Json.num 7 ≠ Json.str s)
        ∧ Json.num 7 ≠ Json.null := by
  refine ⟨_, _, create_ok_shape
    [("fullUrl", .str "https://x.test/?utm_source=ig"),
      ("browserData", .obj [("fbpCookie", .num 7)])]
    "https://x.test/?utm_source=ig" [("fbpCookie", .num 7)] "utm_source=ig"
    none "9.9.9.9" "sid-c3" ⟨2024, 5, 6, 7, 8, 9, 0⟩ []
    (by rfl) (by rfl) (by rfl) (by rfl), by rfl,
    tracking_data_extracted (parse_qs "utm_source=ig") [("fbpCookie", .num 7)],
    ?_, by rfl, fun s => by simp, by simp⟩
  show loads (dumps (.obj
    (tracking_data_extracted (parse_qs "utm_source=ig") [("fbpCookie", .num 7)]))) = _
  rw [loads_dumps _ (wf_tracking _ _ (by rfl))]

/-- C3 amended: the stored trackingData has exactly the ten fixed keys in
order; each of the eight UTM/click-id fields holds the first query value
of that parameter as a string, or null when the parameter is absent; fbp
and fbc are always present, but hold whatever JSON value the browserData
cookie fields carried, which need not be a string or null. -/
theorem tracking_schema
    (kvs : List (String × Json)) (u : String) (bd : List (String × Json)) (q : String)
    (ff : Option String) (remote sid : String) (clock : CivilTime) (store : SessionStore)
    (hurl : lookupKey "fullUrl" kvs = some (.str u))
    (hbd : lookupKey "browserData" kvs = some (.obj bd))
    (hwf : wfJ (.obj bd) = true)
    (hq : urlQuery u = .ok q)
    (hfresh : lookupKey sid store = none) :
    ∃ store' row,
      create_session (some (.obj kvs)) ff remote sid clock store = (.ok sid, store')
        ∧ lookupKey sid store' = some row
        ∧ ∃ td, loads row.tracking_data = some (.obj td)
          ∧ td.map Prod.fst = ["utm_source", "utm_medium", "utm_campaign",
              "utm_content", "utm_term", "fbclid", "gclid", "ttclid", "fbp", "fbc"]
          ∧ (∀ k, k ∈ (["utm_source", "utm_medium", "utm_campaign", "utm_content",
                "utm_term", "fbclid", "gclid", "ttclid"] : List String) →
              lookupKey k td = some (utmVal (parse_qs q) k)
                ∧ (utmVal (parse_qs q) k = .null
                    ∨ ∃ s, utmVal (parse_qs q) k = .str s
                        ∧ qsFirst (parse_qs q) k = some s))
          ∧ (∃ v1, lookupKey "fbp" td = some v1)
          ∧ (∃ v2, lookupKey "fbc" td = some v2) := by
  refine ⟨_, ⟨u, dumps (.obj bd), dumps (server_data_json (ipResolve ff remote) clock),
      dumps (.obj (tracking_data_extracted (parse_qs q) bd))⟩,
    create_ok_shape kvs u bd q ff remote sid clock store hurl hbd hq hfresh,
    ?_, tracking_data_extracted (parse_qs q) bd, ?_, rfl, ?_, ⟨_, rfl⟩, ⟨_, rfl⟩⟩
  · rw [lookupKey_append_none sid store _ hfresh]
    simp [lookupKey]
  · show loads (dumps (.obj (tracking_data_extracted (parse_qs q) bd))) = _
    rw [loads_dumps _ (wf_tracking (parse_qs q) bd hwf)]
  · intro k hk
    fin_cases hk <;> exact ⟨rfl, utmVal_cases (parse_qs q) _⟩

/-- Witness for the amended C3. -/
theorem tracking_schema_witness :
    ∃ store' row,
      create_session
          (some (.obj [("fullUrl", .str "https://x.test/?utm_source=ig&fbclid=abc123"),
            ("browserData", .obj [("fbpCookie", .str "fb1")])]))
          none "9.9.9.9" "sid-w3" ⟨2024, 5, 6, 7, 8, 9, 0⟩ []
        = (.ok "sid-w3", store')
        ∧ lookupKey "sid-w3" store' = some row
        ∧ ∃ td, loads row.tracking_data = some (.obj td)
          ∧ td.map Prod.fst = ["utm_source", "utm_medium", "utm_campaign",
              "utm_content", "utm_term", "fbclid", "gclid", "ttclid", "fbp", "fbc"]
          ∧ (∀ k, k ∈ (["utm_source", "utm_medium", "utm_campaign", "utm_content",
                "utm_term", "fbclid", "gclid", "ttclid"] : List String) →
              lookupKey k td
                  = some (utmVal (parse_qs "utm_source=ig&fbclid=abc123") k)
                ∧ (utmVal (parse_qs "utm_source=ig&fbclid=abc123") k = .null
                    ∨ ∃ s, utmVal (parse_qs "utm_source=ig&fbclid=abc123") k = .str s
                        ∧ qsFirst (parse_qs "utm_source=ig&fbclid=abc123") k = some s))
          ∧ (∃ v1, lookupKey "fbp" td = some v1)
          ∧ (∃ v2, lookupKey "fbc" td = some v2) :=
  tracking_schema
    [("fullUrl", .str "https://x.test/?utm_source=ig&fbclid=abc123"),
      ("browserData", .obj [("fbpCookie", .str "fb1")])]
    "https://x.test/?utm_source=ig&fbclid=abc123" [("fbpCookie", .str "fb1")]
    "utm_source=ig&fbclid=abc123" none "9.9.9.9" "sid-w3" ⟨2024, 5, 6, 7, 8, 9, 0⟩ []
    (by rfl) (by rfl) (by rfl) (by rfl) (by rfl)
